import Mathlib

set_option maxRecDepth 100000

/-!
Verification development for the `ruststack` virtual machine: a shallow
embedding of its memory buffer, register file, opcode table, CPU
fetch-decode-execute loop and two-pass assembler, followed by theorems
settling the frozen claims about the program.

Machine integers are modelled as `Nat` with explicit bounds: `u16`
arithmetic uses checked operations (`chkAdd16` / `chkSub16`) that fail on
overflow exactly where the source performs unchecked `u16`/`usize`
arithmetic, which panics when it overflows (the profile under which the
repository's test suite runs). Casts written `as u16` in the source are
modelled as `% 65536`, which is what a cast does (it truncates and never
fails). Fallible operations return `Option`; a runtime panic (a failed
`unwrap` or an out-of-bounds slice write) is a distinct outcome from a
returned `CpuError`, and the panic outcome carries the state of the
machine at the moment of the panic, since the source mutates its state
through interior-mutable cells that survive an unwind.
-/

namespace RustStack

/-- REGISTER_SIZE from lib.rs: the size of a register in bytes. -/
def REGISTER_SIZE : Nat := 2

/-- lib.rs `to_u16`: big-endian conversion of (the first two bytes of) a
byte buffer to a 16-bit value. Callers always pass buffers of length 2. -/
def to_u16 (l : List Nat) : Nat := 256 * l.getD 0 0 + l.getD 1 0

/-- `u16::to_be_bytes`: the two big-endian bytes of a 16-bit value. The
`% 256` on the high byte makes the function total; every call site passes
a value below 65536. -/
def toBeBytes (v : Nat) : List Nat := [v / 256 % 256, v % 256]

/-- Checked 16-bit addition: Rust `u16 + u16`, which fails (panics) when
the mathematical sum exceeds `u16::MAX`. -/
def chkAdd16 (a b : Nat) : Option Nat := if a + b ≤ 65535 then some (a + b) else none

/-- Checked 16-bit subtraction: Rust `u16 - u16`, which fails (panics)
when the subtrahend exceeds the minuend. -/
def chkSub16 (a b : Nat) : Option Nat := if b ≤ a then some (a - b) else none

/-- register.rs `Register`: the twelve CPU registers. -/
inductive Register where
  | IP | ACC | R1 | R2 | R3 | R4 | R5 | R6 | R7 | R8 | SP | BP
deriving DecidableEq, Repr

/-- `Register::to_index`: the discriminant of the variant. -/
def Register.toIndex : Register → Nat
  | .IP => 0 | .ACC => 1 | .R1 => 2 | .R2 => 3 | .R3 => 4 | .R4 => 5
  | .R5 => 6 | .R6 => 7 | .R7 => 8 | .R8 => 9 | .SP => 10 | .BP => 11

/-- `Register::COUNT` (strum EnumCount): 12. -/
def RegisterCount : Nat := 12

/-- memory.rs `Memory`: a byte buffer of a fixed size. A `Vec<u8>` of
length `size` is modelled as the size together with a total function
giving the byte at each index; indices at or beyond `size` are out of
bounds for every accessor. -/
structure Memory where
  size : Nat
  data : Nat → Nat

/-- `Memory::new(size: u16)`: a zeroed buffer. The parameter is a `u16`
in the source, hence the `% 65536`. -/
def Memory.new (size : Nat) : Memory := ⟨size % 65536, fun _ => 0⟩

/-- `Memory::default()`: a zeroed buffer of 65535 bytes. -/
def Memory.mkDefault : Memory := Memory.new 65535

/-- `Memory::get`: bounds-checked single-byte read. -/
def Memory.get (m : Memory) (i : Nat) : Option Nat :=
  if i < m.size then some (m.data i) else none

/-- `Memory::get_buf`: half-open slice read `[from, to)`; `None` when the
range is invalid, exactly as `Vec::get(from..to)`. -/
def Memory.getBuf (m : Memory) (a b : Nat) : Option (List Nat) :=
  if a ≤ b ∧ b ≤ m.size then some ((List.range (b - a)).map fun k => m.data (a + k))
  else none

/-- `Memory::set`: single-byte write; an out-of-range index panics in the
source, modelled as `none`. -/
def Memory.set (m : Memory) (i v : Nat) : Option Memory :=
  if i < m.size then some ⟨m.size, fun j => if j = i then v else m.data j⟩ else none

/-- `Memory::set_buf`: slice write over `[from, to)`; panics (here
`none`) when the range is invalid or the value has the wrong length. -/
def Memory.setBuf (m : Memory) (a b : Nat) (val : List Nat) : Option Memory :=
  if a ≤ b ∧ b ≤ m.size ∧ val.length = b - a then
    some ⟨m.size, fun j => if a ≤ j ∧ j < b then val.getD (j - a) 0 else m.data j⟩
  else none

/-- `Memory::len`. -/
def Memory.len (m : Memory) : Nat := m.size

/-- A memory image of the given size whose initial bytes are the given
list, the rest zero: the result of writing the program bytes at address 0
into a fresh `Memory` (as the tests do through their `MemoryBuilder`). -/
def Memory.load (l : List Nat) (size : Nat) : Memory :=
  ⟨size % 65536, fun i => (l.get? i).getD 0⟩

/-- cpu.rs `CpuError`. -/
inductive CpuError where
  | InvalidInstruction
  | InvalidRegister (s : String)
  | InvalidAddress (a : Nat)
  | InvalidValue
deriving DecidableEq, Repr

/-- opcodes.rs `OpCode`: every instruction variant. -/
inductive OpCode where
  | Nop
  | MovLitReg | MovRegReg | MovRegMem | MovMemReg
  | AddRegReg
  | JmpNELit
  | PshReg | PshLit | Pop
  | CalLit | CalReg | Ret | Hlt
  | MovLitMem | MovRegPtrReg
  | AddLitReg | SubLitReg | SubRegLit | SubRegReg
  | MulLitReg | MulRegReg
  | IncReg | DecReg
  | ShlRegLit | ShlRegReg | ShrRegLit | ShrRegReg
  | AndRegLit | AndRegReg | OrRegLit | OrRegReg
  | XorRegLit | XorRegReg | NotReg
  | JmpNEReg | JmpEQLit | JmpEQReg
  | JmpLTLit | JmpLTReg | JmpGTLit | JmpGTReg
  | JmpLELit | JmpLEReg | JmpGELit | JmpGEReg
  | Jmp | SysLit
deriving DecidableEq, Repr

/-- opcodes.rs `impl From<OpCode> for u8`: the encoding table. -/
def opToByte : OpCode → Nat
  | .MovLitReg => 0x10 | .MovRegReg => 0x11 | .MovRegMem => 0x12 | .MovMemReg => 0x13
  | .AddRegReg => 0x14 | .JmpNELit => 0x15 | .PshReg => 0x16 | .PshLit => 0x17
  | .Pop => 0x18 | .CalLit => 0x19 | .CalReg => 0x1A | .Ret => 0x1B | .Hlt => 0x1C
  | .MovLitMem => 0x1D | .MovRegPtrReg => 0x1E
  | .AddLitReg => 0x20 | .SubLitReg => 0x21 | .SubRegLit => 0x22 | .SubRegReg => 0x23
  | .MulLitReg => 0x24 | .MulRegReg => 0x25 | .IncReg => 0x26 | .DecReg => 0x27
  | .ShlRegLit => 0x28 | .ShlRegReg => 0x29 | .ShrRegLit => 0x2A | .ShrRegReg => 0x2B
  | .AndRegLit => 0x2C | .AndRegReg => 0x2D | .OrRegLit => 0x2E | .OrRegReg => 0x2F
  | .XorRegLit => 0x30 | .XorRegReg => 0x31 | .NotReg => 0x32
  | .JmpNEReg => 0x33 | .JmpEQLit => 0x34 | .JmpEQReg => 0x35
  | .JmpLTLit => 0x36 | .JmpLTReg => 0x37 | .JmpGTLit => 0x38 | .JmpGTReg => 0x39
  | .JmpLELit => 0x3A | .JmpLEReg => 0x3B | .JmpGELit => 0x3C | .JmpGEReg => 0x3D
  | .Jmp => 0x3E | .SysLit => 0x3F
  | .Nop => 0x00

/-- opcodes.rs `impl From<u8> for OpCode`: the decoding table; any
unassigned byte decodes to `Nop`. -/
def byteToOp : Nat → OpCode
  | 0x10 => .MovLitReg | 0x11 => .MovRegReg | 0x12 => .MovRegMem | 0x13 => .MovMemReg
  | 0x14 => .AddRegReg | 0x15 => .JmpNELit | 0x16 => .PshReg | 0x17 => .PshLit
  | 0x18 => .Pop | 0x19 => .CalLit | 0x1A => .CalReg | 0x1B => .Ret | 0x1C => .Hlt
  | 0x1D => .MovLitMem | 0x1E => .MovRegPtrReg
  | 0x20 => .AddLitReg | 0x21 => .SubLitReg | 0x22 => .SubRegLit | 0x23 => .SubRegReg
  | 0x24 => .MulLitReg | 0x25 => .MulRegReg | 0x26 => .IncReg | 0x27 => .DecReg
  | 0x28 => .ShlRegLit | 0x29 => .ShlRegReg | 0x2A => .ShrRegLit | 0x2B => .ShrRegReg
  | 0x2C => .AndRegLit | 0x2D => .AndRegReg | 0x2E => .OrRegLit | 0x2F => .OrRegReg
  | 0x30 => .XorRegLit | 0x31 => .XorRegReg | 0x32 => .NotReg
  | 0x33 => .JmpNEReg | 0x34 => .JmpEQLit | 0x35 => .JmpEQReg
  | 0x36 => .JmpLTLit | 0x37 => .JmpLTReg | 0x38 => .JmpGTLit | 0x39 => .JmpGTReg
  | 0x3A => .JmpLELit | 0x3B => .JmpLEReg | 0x3C => .JmpGELit | 0x3D => .JmpGEReg
  | 0x3E => .Jmp | 0x3F => .SysLit
  | _ => .Nop

/-- All 48 `OpCode` variants, for quantifier-free statements about the
opcode tables. -/
def allOpCodes : List OpCode :=
  [.Nop, .MovLitReg, .MovRegReg, .MovRegMem, .MovMemReg, .AddRegReg, .JmpNELit,
   .PshReg, .PshLit, .Pop, .CalLit, .CalReg, .Ret, .Hlt, .MovLitMem, .MovRegPtrReg,
   .AddLitReg, .SubLitReg, .SubRegLit, .SubRegReg, .MulLitReg, .MulRegReg,
   .IncReg, .DecReg, .ShlRegLit, .ShlRegReg, .ShrRegLit, .ShrRegReg,
   .AndRegLit, .AndRegReg, .OrRegLit, .OrRegReg, .XorRegLit, .XorRegReg, .NotReg,
   .JmpNEReg, .JmpEQLit, .JmpEQReg, .JmpLTLit, .JmpLTReg, .JmpGTLit, .JmpGTReg,
   .JmpLELit, .JmpLEReg, .JmpGELit, .JmpGEReg, .Jmp, .SysLit]

/-- cpu.rs `CPU`: one main memory and one 24-byte register-file memory. -/
structure CPU where
  memory : Memory
  registers : Memory

/-- `CPU::get_register`: big-endian read of the two register-file bytes
at offset `2 * index`. The source unwraps the slice read; the register
file built by `CPU::new` has size 24 and every register offset is at most
22, so the unwrap never fails there, and the default is never read in
this development. -/
def CPU.getReg (c : CPU) (r : Register) : Nat :=
  let index := r.toIndex * REGISTER_SIZE
  to_u16 ((c.registers.getBuf index (index + 2)).getD [0, 0])

/-- `CPU::set_register`: big-endian write of the two register-file bytes
at offset `2 * index`; same remark about bounds as `getReg`. -/
def CPU.setReg (c : CPU) (r : Register) (value : Nat) : CPU :=
  let index := r.toIndex * REGISTER_SIZE
  { c with registers := (c.registers.setBuf index (index + 2) (toBeBytes value)).getD c.registers }

/-- `CPU::new`: register file of `12 * 2` zero bytes with `SP` and `BP`
initialised to `(memory.len() - 2) as u16`. The `usize` subtraction fails
when the memory is shorter than 2 bytes (modelled as `none`); the cast
truncates. -/
def CPU.new (memory : Memory) : Option CPU :=
  if 2 ≤ memory.len then
    let registers := Memory.new (RegisterCount * REGISTER_SIZE)
    let memsize := toBeBytes ((memory.len - 2) % 65536)
    let spIdx := Register.SP.toIndex * REGISTER_SIZE
    let bpIdx := Register.BP.toIndex * REGISTER_SIZE
    (registers.setBuf spIdx (spIdx + 2) memsize).bind fun r1 =>
      (r1.setBuf bpIdx (bpIdx + 2) memsize).map fun r2 =>
        { memory := memory, registers := r2 }
  else none

/-- `CPU::new` specialised to memories of length at least 2, where
construction succeeds (the `Option` of `CPU.new` is `none` only below
length 2; the default is never reached in this development). -/
def CPU.mk2 (memory : Memory) : CPU :=
  (CPU.new memory).getD ⟨memory, Memory.new (RegisterCount * REGISTER_SIZE)⟩

/-- The outcome of a CPU operation: a normal result, a returned
`CpuError`, or a panic. Every outcome carries the machine state, because
state mutated before an error return or a panic stays mutated. -/
inductive Res (α : Type) where
  | ok (c : CPU) (v : α)
  | err (c : CPU) (e : CpuError)
  | panic (c : CPU)

/-- Sequencing of CPU operations: errors and panics propagate. -/
def Res.bind {α β : Type} (r : Res α) (f : CPU → α → Res β) : Res β :=
  match r with
  | .ok c v => f c v
  | .err c e => .err c e
  | .panic c => .panic c

/-- The machine state carried by an outcome. -/
def Res.state {α : Type} : Res α → CPU
  | .ok c _ => c
  | .err c _ => c
  | .panic c => c

/-- Whether the outcome is a normal result. -/
def Res.isOk {α : Type} : Res α → Bool
  | .ok _ _ => true
  | _ => false

/-- Whether the outcome is a panic. -/
def Res.isPanic {α : Type} : Res α → Bool
  | .panic _ => true
  | _ => false

/-- Whether the outcome is a returned `CpuError`. -/
def Res.isErr {α : Type} : Res α → Bool
  | .err _ _ => true
  | _ => false

/-- The value of a normal outcome. -/
def Res.val? {α : Type} : Res α → Option α
  | .ok _ v => some v
  | _ => none

/-- `CPU::fetch`: read the byte at `IP` (failing with `InvalidAddress`
out of bounds), then `IP ← IP + 1` (a checked `u16` increment). -/
def CPU.fetch (c : CPU) : Res Nat :=
  let ipval := c.getReg .IP
  match c.memory.get ipval with
  | none => .err c (.InvalidAddress ipval)
  | some instruction =>
    match chkAdd16 ipval 1 with
    | none => .panic c
    | some ip2 => .ok (c.setReg .IP ip2) instruction

/-- `CPU::fetch_buf`: `n` consecutive fetches. -/
def CPU.fetchBuf (c : CPU) : Nat → Res (List Nat)
  | 0 => .ok c []
  | n + 1 =>
    (c.fetch).bind fun c1 v =>
      (c1.fetchBuf n).bind fun c2 vs => .ok c2 (v :: vs)

/-- `CPU::push`: write the 2-byte value at `[SP, SP+2)` (the `sp + 2` is
a checked `u16` addition, the slice write panics out of bounds), then
`SP ← SP - 2` (checked). -/
def CPU.push (c : CPU) (value : List Nat) : Res Unit :=
  let sp := c.getReg .SP
  match chkAdd16 sp 2 with
  | none => .panic c
  | some sp2 =>
    match c.memory.setBuf sp sp2 value with
    | none => .panic c
    | some m =>
      let c1 : CPU := { c with memory := m }
      match chkSub16 sp 2 with
      | none => .panic c1
      | some spm => .ok (c1.setReg .SP spm) ()

/-- `CPU::pop`: `SP ← SP + 2` (checked `u16` addition), then read and
unwrap the 2 bytes at `[SP, SP+2)`; the unwrap panics out of bounds, and
by then `SP` has already been moved. -/
def CPU.pop (c : CPU) : Res (List Nat) :=
  match chkAdd16 (c.getReg .SP) 2 with
  | none => .panic c
  | some nextSp =>
    let c1 := c.setReg .SP nextSp
    match c1.memory.getBuf nextSp (nextSp + 2) with
    | none => .panic c1
    | some buf => .ok c1 buf

/-- `CPU::fetch_reg_idx`: fetch one byte, reduce it modulo the register
count and scale it to a byte offset in the register file. -/
def CPU.fetchRegIdx (c : CPU) : Res Nat :=
  (c.fetch).bind fun c1 v => .ok c1 (v % RegisterCount * 2)

/-- Raw read of the register-file slice at byte offset `i`, as the
`to_u16(registers_memory.get_buf(i, i + 2).unwrap())` pattern of the
execute arms (same bounds remark as `getReg`). -/
def CPU.regAt (c : CPU) (i : Nat) : Nat :=
  to_u16 ((c.registers.getBuf i (i + 2)).getD [0, 0])

/-- Raw write of the register-file slice at byte offset `i`, as the
`registers_memory.set_buf(i, i + 2, buf)` pattern of the execute arms. -/
def CPU.setRegAt (c : CPU) (i : Nat) (buf : List Nat) : CPU :=
  { c with registers := (c.registers.setBuf i (i + 2) buf).getD c.registers }

/-- cpu.rs `CPU::execute`: one instruction, operands fetched from the
instruction stream. The snapshot's cpu.rs matches on an opcode enum of
exactly the fourteen variants below (named `JmpNE` and `NOP` there for
`JmpNELit` and `Nop`); the remaining variants of the opcodes.rs table
have no arm in cpu.rs and are treated as no-ops here. No claim exercises
them. -/
def CPU.execute (c : CPU) (instruction : OpCode) : Res Bool :=
  match instruction with
  | .MovLitReg =>
    (c.fetchBuf 2).bind fun c1 lit =>
      (c1.fetchRegIdx).bind fun c2 reg =>
        .ok (c2.setRegAt reg lit) false
  | .MovRegReg =>
    (c.fetchRegIdx).bind fun c1 regFrom =>
      (c1.fetchRegIdx).bind fun c2 regTo =>
        let val := c2.regAt regFrom
        .ok (c2.setRegAt regTo (toBeBytes val)) false
  | .MovRegMem =>
    (c.fetchRegIdx).bind fun c1 reg =>
      (c1.fetchBuf 2).bind fun c2 addrBytes =>
        let addr := to_u16 addrBytes
        let val := (c2.registers.getBuf reg (reg + 2)).getD [0, 0]
        match c2.memory.setBuf addr (addr + 2) val with
        | none => .panic c2
        | some m => .ok { c2 with memory := m } false
  | .MovMemReg =>
    (c.fetchBuf 2).bind fun c1 addrBytes =>
      (c1.fetchRegIdx).bind fun c2 reg =>
        let addr := to_u16 addrBytes
        match c2.memory.getBuf addr (addr + 2) with
        | none => .panic c2
        | some val => .ok (c2.setRegAt reg val) false
  | .AddRegReg =>
    (c.fetchRegIdx).bind fun c1 r1Idx =>
      (c1.fetchRegIdx).bind fun c2 r2Idx =>
        let regVal1 := c2.regAt r1Idx
        let regVal2 := c2.regAt r2Idx
        match chkAdd16 regVal1 regVal2 with
        | none => .panic c2
        | some result => .ok (c2.setReg .ACC result) false
  | .JmpNELit =>
    (c.fetchBuf 2).bind fun c1 valueBytes =>
      (c1.fetchBuf 2).bind fun c2 addrBytes =>
        let value := to_u16 valueBytes
        let addr := to_u16 addrBytes
        if value ≠ c2.getReg .ACC then .ok (c2.setReg .IP addr) false
        else .ok c2 false
  | .PshLit =>
    (c.fetchBuf 2).bind fun c1 value =>
      (c1.push value).bind fun c2 _ => .ok c2 false
  | .PshReg =>
    (c.fetchRegIdx).bind fun c1 reg =>
      let value := (c1.registers.getBuf reg (reg + 2)).getD [0, 0]
      (c1.push value).bind fun c2 _ => .ok c2 false
  | .Pop =>
    (c.fetchRegIdx).bind fun c1 regIdx =>
      (c1.pop).bind fun c2 v => .ok (c2.setRegAt regIdx v) false
  | .CalLit =>
    (c.fetchBuf 2).bind fun c1 addrBytes =>
      let addr := to_u16 addrBytes
      (c1.push (toBeBytes (c1.getReg .IP))).bind fun c2 _ =>
        .ok (c2.setReg .IP addr) false
  | .CalReg =>
    (c.fetchRegIdx).bind fun c1 regIdx =>
      let addr := c1.regAt regIdx
      (c1.push (toBeBytes (c1.getReg .IP))).bind fun c2 _ =>
        .ok (c2.setReg .IP addr) false
  | .Ret =>
    (c.pop).bind fun c1 buf =>
      .ok (c1.setReg .IP (to_u16 buf)) false
  | .Hlt => .ok c true
  | .Nop => .ok c false
  | _ => .ok c false

/-- `CPU::step`: fetch a byte, decode it, execute it. -/
def CPU.step (c : CPU) : Res Bool :=
  (c.fetch).bind fun c1 instruction => c1.execute (byteToOp instruction)

/-- Several consecutive `step` calls (as the tests perform); errors and
panics propagate. -/
def CPU.doSteps (c : CPU) : Nat → Res Unit
  | 0 => .ok c ()
  | n + 1 => (c.step).bind fun c1 _ => c1.doSteps n

end RustStack

namespace RustStack

/-- The three-instruction program of scenario 1 / `test_cpu_add`:
`MovLitReg 0x1234 -> R1; MovLitReg 0xABCD -> R2; AddRegReg R1,R2`. -/
def progAdd : List Nat := [0x10, 0x12, 0x34, 2, 0x10, 0xAB, 0xCD, 3, 0x14, 2, 3]

/-- A `JmpNELit` instruction whose operand words are `0x0005` then
`0x0009`, at address 0 of an image of the size the tests use. -/
def progJne : List Nat := [0x15, 0x00, 0x05, 0x00, 0x09]

end RustStack

/-- C1 counterexample. The claim says conditional jumps decode the 2-byte
target address first and the comparison value second. On the instruction
bytes `15 00 05 00 09` with `ACC = 0` that reading would take `0x0005` as
the address and `0x0009` as the value, so (`0x0009 ≠ 0`) `IP` would become
`0x0005`. The CPU instead binds the first fetched word to the comparison
value and the second to the address: `IP` becomes `0x0009`. -/
theorem C1_counterexample :
    ((RustStack.CPU.mk2 (RustStack.Memory.load RustStack.progJne (256 * 255))).step).isOk = true ∧
    ((RustStack.CPU.mk2 (RustStack.Memory.load RustStack.progJne (256 * 255))).step).state.getReg
      RustStack.Register.IP = 0x0009 ∧
    (0x0009 : Nat) ≠ 0x0005 := by
  refine ⟨by decide, by decide, by decide⟩

/-- C3 counterexample. On a genuinely default-size image (65535 bytes,
`Memory::default`), a fresh CPU sets `SP = BP = 65535 - 2 = 0xFFFD`, not
`0xFEFE` as the claim states; the claimed `0xFEFE` arises only on the
65280-byte (256·255) images the tests construct. -/
theorem C3_counterexample :
    ((RustStack.CPU.mk2 (RustStack.Memory.load RustStack.progAdd 65535)).doSteps 3).isOk = true ∧
    ((RustStack.CPU.mk2 (RustStack.Memory.load RustStack.progAdd 65535)).doSteps 3).state.getReg
      RustStack.Register.SP = 0xFFFD ∧
    ((RustStack.CPU.mk2 (RustStack.Memory.load RustStack.progAdd 65535)).doSteps 3).state.getReg
      RustStack.Register.BP = 0xFFFD ∧
    (0xFFFD : Nat) ≠ 0xFEFE := by
  refine ⟨by decide, by decide, by decide, by decide⟩

/-- C3 as amended: on a fresh CPU over a 65280-byte (256·255, as in
`test_cpu_add`) image holding the program at address 0, three steps yield
`ACC = 0xBE01`, `R1 = 0x1234`, `R2 = 0xABCD`, `IP = 0xB` and
`SP = BP = 0xFEFE`. -/
theorem C3_add_scenario :
    ((RustStack.CPU.mk2 (RustStack.Memory.load RustStack.progAdd (256 * 255))).doSteps 3).isOk = true ∧
    ((RustStack.CPU.mk2 (RustStack.Memory.load RustStack.progAdd (256 * 255))).doSteps 3).state.getReg
      RustStack.Register.ACC = 0xBE01 ∧
    ((RustStack.CPU.mk2 (RustStack.Memory.load RustStack.progAdd (256 * 255))).doSteps 3).state.getReg
      RustStack.Register.R1 = 0x1234 ∧
    ((RustStack.CPU.mk2 (RustStack.Memory.load RustStack.progAdd (256 * 255))).doSteps 3).state.getReg
      RustStack.Register.R2 = 0xABCD ∧
    ((RustStack.CPU.mk2 (RustStack.Memory.load RustStack.progAdd (256 * 255))).doSteps 3).state.getReg
      RustStack.Register.IP = 0xB ∧
    ((RustStack.CPU.mk2 (RustStack.Memory.load RustStack.progAdd (256 * 255))).doSteps 3).state.getReg
      RustStack.Register.SP = 0xFEFE ∧
    ((RustStack.CPU.mk2 (RustStack.Memory.load RustStack.progAdd (256 * 255))).doSteps 3).state.getReg
      RustStack.Register.BP = 0xFEFE := by
  refine ⟨by decide, by decide, by decide, by decide, by decide, by decide, by decide⟩

/-- C4 counterexample. With `R1 = R2 = 0x8000`, the claim predicts
`AddRegReg` stores `(0x8000 + 0x8000) mod 2^16 = 0` into `ACC` and never
faults; the CPU's unchecked 16-bit addition instead overflows and the
step panics. -/
theorem C4_counterexample :
    ((RustStack.CPU.mk2 (RustStack.Memory.load
        [0x10, 0x80, 0x00, 2, 0x10, 0x80, 0x00, 3, 0x14, 2, 3] (256 * 255))).doSteps 3).isPanic
      = true ∧
    ((RustStack.CPU.mk2 (RustStack.Memory.load
        [0x10, 0x80, 0x00, 2, 0x10, 0x80, 0x00, 3, 0x14, 2, 3] (256 * 255))).doSteps 2).isOk
      = true := by
  refine ⟨by decide, by decide⟩

/-- C7 counterexample. `PshLit 0x1234` then `Pop R1` from a fresh CPU on a
65280-byte image: `SP` does return to its initial value 0xFEFE = 65278,
but the byte at address 65279 — strictly above the final `SP` — now holds
`0x34` (the low byte of the pushed value) where it held 0 before the
pair, because the push writes its value at `[SP, SP+2)`. -/
theorem C7_counterexample :
    ((RustStack.CPU.mk2 (RustStack.Memory.load [0x17, 0x12, 0x34, 0x18, 2] (256 * 255))).doSteps 2).isOk
      = true ∧
    ((RustStack.CPU.mk2 (RustStack.Memory.load [0x17, 0x12, 0x34, 0x18, 2] (256 * 255))).doSteps 2).state.getReg
      RustStack.Register.SP = 65278 ∧
    (RustStack.CPU.mk2 (RustStack.Memory.load [0x17, 0x12, 0x34, 0x18, 2] (256 * 255))).getReg
      RustStack.Register.SP = 65278 ∧
    (RustStack.Memory.load [0x17, 0x12, 0x34, 0x18, 2] (256 * 255)).data 65279 = 0 ∧
    ((RustStack.CPU.mk2 (RustStack.Memory.load [0x17, 0x12, 0x34, 0x18, 2] (256 * 255))).doSteps 2).state.memory.data
      65279 = 0x34 ∧
    65278 < 65279 := by
  refine ⟨by decide, by decide, by decide, by decide, by decide, by decide⟩

/-- C5: the opcode table round-trips — `allOpCodes` enumerates every
variant, decoding the encoded byte of any variant gives the variant back,
and decoding any byte (of the 256) assigned to no variant gives `Nop`. -/
theorem C5_opcode_roundtrip :
    (∀ op : RustStack.OpCode, op ∈ RustStack.allOpCodes) ∧
    (∀ op : RustStack.OpCode, RustStack.byteToOp (RustStack.opToByte op) = op) ∧
    (∀ b : Nat, b < 256 → b ∉ RustStack.allOpCodes.map RustStack.opToByte →
      RustStack.byteToOp b = RustStack.OpCode.Nop) := by
  refine ⟨fun op => by cases op <;> decide, fun op => by cases op <;> rfl, by decide⟩

/-- C5 witness: byte 0x1F is in range, assigned to no opcode, and decodes
to `Nop`. -/
theorem C5_witness : RustStack.byteToOp 0x1F = RustStack.OpCode.Nop :=
  C5_opcode_roundtrip.2.2 0x1F (by decide) (by decide)

namespace RustStack

/-! The assembler (assembler.rs): AST, memory builder, two-pass
`assemble` with deferred label patching. -/

/-- ast.rs `ASTArg`. -/
inductive ASTArg where
  | Label (name : String)
  | Lit (v : Nat)
  | Reg (r : Register)
  | Mem (inner : ASTArg)
  | Offset (base inner : ASTArg)
deriving DecidableEq, Repr

/-- ast.rs `ASTNode`. -/
inductive ASTNode where
  | Label (name : String)
  | Mov (a b : ASTArg)
  | Add (a b : ASTArg)
  | Sub (a b : ASTArg)
  | Mul (a b : ASTArg)
  | Shl (a b : ASTArg)
  | Shr (a b : ASTArg)
  | And (a b : ASTArg)
  | Or (a b : ASTArg)
  | Xor (a b : ASTArg)
  | Jne (a b : ASTArg)
  | Jeq (a b : ASTArg)
  | Jlt (a b : ASTArg)
  | Jgt (a b : ASTArg)
  | Jle (a b : ASTArg)
  | Jge (a b : ASTArg)
  | Not (a : ASTArg)
  | Jmp (a : ASTArg)
  | Psh (a : ASTArg)
  | Pop (a : ASTArg)
  | Cal (a : ASTArg)
  | Inc (a : ASTArg)
  | Dec (a : ASTArg)
  | Sys (a : ASTArg)
  | Ret
  | Hlt
  | Nop
deriving DecidableEq, Repr

/-- assembler.rs `AssemblerError`, restricted to the variants `assemble`
itself can produce (`Parser` and the IO wrapper arise only in the
`From` conversions outside `assemble`). -/
inductive AssemblerError where
  | Parser (s : String)
  | InvalidLabel (name : String)
  | InvalidArgument (arg : ASTArg)
deriving DecidableEq, Repr

/-- memory.rs `MemoryBuilder`: a memory plus a write cursor. -/
structure MemoryBuilder where
  memory : Memory
  counter : Nat

/-- `MemoryBuilder::push`: write one byte at the cursor (panicking out of
bounds, hence `Option`) and advance the cursor by 1. -/
def MemoryBuilder.push (b : MemoryBuilder) (v : Nat) : Option MemoryBuilder :=
  (b.memory.set b.counter v).map fun m => ⟨m, b.counter + 1⟩

/-- `MemoryBuilder::push_u16`: push the two big-endian bytes. -/
def MemoryBuilder.pushU16 (b : MemoryBuilder) (v : Nat) : Option MemoryBuilder :=
  (b.push (v / 256 % 256)).bind fun b1 => b1.push (v % 256)

/-- `MemoryBuilder::get_counter`. -/
def MemoryBuilder.getCounter (b : MemoryBuilder) : Nat := b.counter

/-- `MemoryBuilder::incr`. -/
def MemoryBuilder.incr (b : MemoryBuilder) : MemoryBuilder :=
  { b with counter := b.counter + 1 }

/-- `MemoryBuilder::set_counter`. -/
def MemoryBuilder.setCounter (b : MemoryBuilder) (n : Nat) : MemoryBuilder :=
  { b with counter := n }

/-- `MemoryBuilder::build`. -/
def MemoryBuilder.build (b : MemoryBuilder) : Memory := b.memory

/-- Outcome of an assembler computation: a result, a returned
`AssemblerError`, or a panic (an out-of-bounds builder write, or the
`todo!` arm). -/
inductive ARes (α : Type) where
  | ok (v : α)
  | err (e : AssemblerError)
  | panic

/-- Sequencing of assembler computations. -/
def ARes.bind {α β : Type} : ARes α → (α → ARes β) → ARes β
  | .ok v, f => f v
  | .err e, _ => .err e
  | .panic, _ => .panic

/-- Whether the outcome is a normal result. -/
def ARes.isOk {α : Type} : ARes α → Bool
  | .ok _ => true
  | _ => false

/-- Whether the outcome is a panic. -/
def ARes.isPanic {α : Type} : ARes α → Bool
  | .panic => true
  | _ => false

/-- The result of a successful outcome, or the supplied default. -/
def aresGetD {α : Type} : ARes α → α → α
  | .ok v, _ => v
  | _, d => d

/-- The state of `Assembler::assemble`'s linear pass: the builder, the
labels seen so far (`label_addrs`, a string-keyed map modelled as an
association list where the most recent insertion shadows older ones, as
`HashMap::insert` overwrites) and the pending patches (`need_patching`). -/
structure AsmState where
  builder : MemoryBuilder
  labelAddrs : List (String × Nat)
  needPatching : List (String × Nat)

/-- `HashMap::get` on the association list: the most recent binding. -/
def lookupA (labels : List (String × Nat)) (k : String) : Option Nat :=
  (labels.find? fun p => p.1 = k).map fun p => p.2

/-- Lift a fallible builder operation into the assembler outcome. -/
def withB {α : Type} : Option MemoryBuilder → (MemoryBuilder → ARes α) → ARes α
  | none, _ => .panic
  | some b, k => k b

/-- One conditional-jump arm of `Assembler::assemble`. The six `J{cc}`
arms of the source are textually identical up to the opcode pair, so
they are factored here: emit the opcode, skip one byte
(`set_counter(get_counter() + 1)`), emit the comparison operand, then
record `(label, cursor - 2)` in `need_patching`. -/
def processJcc (st : AsmState) (opLit opReg : OpCode) (label a : ASTArg) : ARes AsmState :=
  match label with
  | .Label l =>
    (match a with
     | .Lit lit =>
       withB (st.builder.push (opToByte opLit)) fun b1 =>
       withB ((b1.setCounter (b1.getCounter + 1)).pushU16 lit) fun b2 => .ok b2
     | .Reg r =>
       withB (st.builder.push (opToByte opReg)) fun b1 =>
       withB ((b1.setCounter (b1.getCounter + 1)).push r.toIndex) fun b2 => .ok b2
     | _ => ARes.err (.InvalidArgument a)).bind fun b =>
    .ok { st with
          builder := b
          needPatching := st.needPatching ++ [(l, b.getCounter - 2)] }
  | _ => .err (.InvalidArgument label)

/-- One node of `Assembler::assemble`'s linear pass, arm for arm. -/
def processNode (st : AsmState) : ASTNode → ARes AsmState
  | .Label name =>
    .ok { st with labelAddrs := (name, st.builder.getCounter % 65536) :: st.labelAddrs }
  | .Mov a1 a2 =>
    match a1, a2 with
    | .Lit lit, .Reg reg =>
      withB (st.builder.push (opToByte .MovLitReg)) fun b1 =>
      withB (b1.pushU16 lit) fun b2 =>
      withB (b2.push reg.toIndex) fun b3 => .ok { st with builder := b3 }
    | .Reg r1, .Reg r2 =>
      withB (st.builder.push (opToByte .MovRegReg)) fun b1 =>
      withB (b1.push r1.toIndex) fun b2 =>
      withB (b2.push r2.toIndex) fun b3 => .ok { st with builder := b3 }
    | .Reg r1, .Mem mem =>
      withB (st.builder.push (opToByte .MovRegMem)) fun b1 =>
      withB (b1.push r1.toIndex) fun b2 =>
      (match mem with
       | .Label l =>
         .ok { st with
               builder := b2.incr
               needPatching := st.needPatching ++ [(l, b2.getCounter)] }
       | .Lit lit =>
         withB (b2.pushU16 lit) fun b3 => .ok { st with builder := b3 }
       | .Reg ptrreg =>
         withB (b2.push ptrreg.toIndex) fun b3 => .ok { st with builder := b3 }
       | _ => .err (.InvalidArgument (.Mem mem)))
    | .Mem mem, .Reg reg2 =>
      (match mem with
       | .Label l =>
         withB (st.builder.push (opToByte .MovMemReg)) fun b1 =>
         .ok ({ st with
               builder := b1.incr
               needPatching := st.needPatching ++ [(l, b1.getCounter)] }, ())
       | .Lit lit =>
         withB (st.builder.push (opToByte .MovMemReg)) fun b1 =>
         withB (b1.pushU16 lit) fun b2 => .ok ({ st with builder := b2 }, ())
       | .Reg reg =>
         withB (st.builder.push (opToByte .MovRegPtrReg)) fun b1 =>
         withB (b1.push reg.toIndex) fun b2 => .ok ({ st with builder := b2 }, ())
       | _ => .err (.InvalidArgument (.Reg reg2))).bind fun st1 =>
      withB (st1.1.builder.push reg2.toIndex) fun b => .ok { st1.1 with builder := b }
    | _, _ => .err (.InvalidArgument a1)
  | .Add a reg =>
    match reg with
    | .Reg r =>
      (match a with
       | .Reg r2 =>
         withB (st.builder.push (opToByte .AddRegReg)) fun b1 =>
         withB (b1.push r2.toIndex) fun b2 =>
         withB (b2.push r.toIndex) fun b3 => .ok { st with builder := b3 }
       | .Lit lit =>
         withB (st.builder.push (opToByte .AddLitReg)) fun b1 =>
         withB (b1.pushU16 lit) fun b2 =>
         withB (b2.push r.toIndex) fun b3 => .ok { st with builder := b3 }
       | _ => .err (.InvalidArgument a))
    | _ => .err (.InvalidArgument reg)
  | .Sub a1 a2 =>
    match a1, a2 with
    | .Reg r1, .Reg r2 =>
      withB (st.builder.push (opToByte .SubRegReg)) fun b1 =>
      withB (b1.push r1.toIndex) fun b2 =>
      withB (b2.push r2.toIndex) fun b3 => .ok { st with builder := b3 }
    | .Reg r1, .Lit lit =>
      withB (st.builder.push (opToByte .SubRegLit)) fun b1 =>
      withB (b1.push r1.toIndex) fun b2 =>
      withB (b2.pushU16 lit) fun b3 => .ok { st with builder := b3 }
    | .Lit lit, .Reg r2 =>
      withB (st.builder.push (opToByte .SubRegLit)) fun b1 =>
      withB (b1.pushU16 lit) fun b2 =>
      withB (b2.push r2.toIndex) fun b3 => .ok { st with builder := b3 }
    | _, _ => .err (.InvalidArgument a1)
  | .Mul a reg =>
    match reg with
    | .Reg r =>
      (match a with
       | .Reg r2 =>
         withB (st.builder.push (opToByte .MulRegReg)) fun b1 =>
         withB (b1.push r2.toIndex) fun b2 =>
         withB (b2.push r.toIndex) fun b3 => .ok { st with builder := b3 }
       | .Lit lit =>
         withB (st.builder.push (opToByte .MulLitReg)) fun b1 =>
         withB (b1.pushU16 lit) fun b2 =>
         withB (b2.push r.toIndex) fun b3 => .ok { st with builder := b3 }
       | _ => .err (.InvalidArgument a))
    | _ => .err (.InvalidArgument reg)
  | .Shl reg a =>
    match reg with
    | .Reg r =>
      (match a with
       | .Reg r2 =>
         withB (st.builder.push (opToByte .ShlRegReg)) fun b1 =>
         withB (b1.push r.toIndex) fun b2 =>
         withB (b2.push r2.toIndex) fun b3 => .ok { st with builder := b3 }
       | .Lit lit =>
         withB (st.builder.push (opToByte .ShlRegLit)) fun b1 =>
         withB (b1.push r.toIndex) fun b2 =>
         withB (b2.pushU16 lit) fun b3 => .ok { st with builder := b3 }
       | _ => .err (.InvalidArgument a))
    | _ => .err (.InvalidArgument reg)
  | .Shr reg a =>
    match reg with
    | .Reg r =>
      (match a with
       | .Reg r2 =>
         withB (st.builder.push (opToByte .ShrRegReg)) fun b1 =>
         withB (b1.push r.toIndex) fun b2 =>
         withB (b2.push r2.toIndex) fun b3 => .ok { st with builder := b3 }
       | .Lit lit =>
         withB (st.builder.push (opToByte .ShrRegLit)) fun b1 =>
         withB (b1.push r.toIndex) fun b2 =>
         withB (b2.pushU16 lit) fun b3 => .ok { st with builder := b3 }
       | _ => .err (.InvalidArgument a))
    | _ => .err (.InvalidArgument reg)
  | .And reg a =>
    match reg with
    | .Reg r =>
      (match a with
       | .Reg r2 =>
         withB (st.builder.push (opToByte .AndRegReg)) fun b1 =>
         withB (b1.push r.toIndex) fun b2 =>
         withB (b2.push r2.toIndex) fun b3 => .ok { st with builder := b3 }
       | .Lit lit =>
         withB (st.builder.push (opToByte .AndRegLit)) fun b1 =>
         withB (b1.push r.toIndex) fun b2 =>
         withB (b2.pushU16 lit) fun b3 => .ok { st with builder := b3 }
       | _ => .err (.InvalidArgument a))
    | _ => .err (.InvalidArgument reg)
  | .Or reg a =>
    match reg with
    | .Reg r =>
      (match a with
       | .Reg r2 =>
         withB (st.builder.push (opToByte .OrRegReg)) fun b1 =>
         withB (b1.push r.toIndex) fun b2 =>
         withB (b2.push r2.toIndex) fun b3 => .ok { st with builder := b3 }
       | .Lit lit =>
         withB (st.builder.push (opToByte .OrRegLit)) fun b1 =>
         withB (b1.push r.toIndex) fun b2 =>
         withB (b2.pushU16 lit) fun b3 => .ok { st with builder := b3 }
       | _ => .err (.InvalidArgument a))
    | _ => .err (.InvalidArgument reg)
  | .Xor reg a =>
    match reg with
    | .Reg r =>
      (match a with
       | .Lit lit =>
         withB (st.builder.push (opToByte .XorRegLit)) fun b1 =>
         withB (b1.push r.toIndex) fun b2 =>
         withB (b2.pushU16 lit) fun b3 => .ok { st with builder := b3 }
       | .Reg r2 =>
         -- the source pushes XorRegLit here as well (assembler.rs line 210)
         withB (st.builder.push (opToByte .XorRegLit)) fun b1 =>
         withB (b1.push r.toIndex) fun b2 =>
         withB (b2.push r2.toIndex) fun b3 => .ok { st with builder := b3 }
       | _ => .err (.InvalidArgument a))
    | _ => .err (.InvalidArgument reg)
  | .Not reg =>
    match reg with
    | .Reg r =>
      withB (st.builder.push (opToByte .NotReg)) fun b1 =>
      withB (b1.push r.toIndex) fun b2 => .ok { st with builder := b2 }
    | _ => .err (.InvalidArgument reg)
  | .Jne label a => processJcc st .JmpNELit .JmpNEReg label a
  | .Jeq label a => processJcc st .JmpEQLit .JmpEQReg label a
  | .Jlt label a => processJcc st .JmpLTLit .JmpLTReg label a
  | .Jgt label a => processJcc st .JmpGTLit .JmpGTReg label a
  | .Jle label a => processJcc st .JmpLELit .JmpLEReg label a
  | .Jge label a => processJcc st .JmpGELit .JmpGEReg label a
  | .Jmp label =>
    match label with
    | .Label l =>
      withB (st.builder.push (opToByte .Jmp)) fun b1 =>
      .ok { st with
            builder := b1.incr
            needPatching := st.needPatching ++ [(l, b1.getCounter)] }
    | _ => .err (.InvalidArgument label)
  | .Psh a =>
    match a with
    | .Lit lit =>
      withB (st.builder.push (opToByte .PshLit)) fun b1 =>
      withB (b1.pushU16 lit) fun b2 => .ok { st with builder := b2 }
    | .Reg reg =>
      withB (st.builder.push (opToByte .PshReg)) fun b1 =>
      withB (b1.push reg.toIndex) fun b2 => .ok { st with builder := b2 }
    | _ => .err (.InvalidArgument a)
  | .Pop reg =>
    withB (st.builder.push (opToByte .Pop)) fun b1 =>
    match reg with
    | .Reg r =>
      withB (b1.push r.toIndex) fun b2 => .ok { st with builder := b2 }
    | _ => .err (.InvalidArgument reg)
  | .Cal a =>
    match a with
    | .Lit lit =>
      withB (st.builder.push (opToByte .CalLit)) fun b1 =>
      withB (b1.pushU16 lit) fun b2 => .ok { st with builder := b2 }
    | .Reg reg =>
      withB (st.builder.push (opToByte .CalReg)) fun b1 =>
      withB (b1.push reg.toIndex) fun b2 => .ok { st with builder := b2 }
    | .Label l =>
      withB (st.builder.push (opToByte .CalLit)) fun b1 =>
      .ok { st with
            builder := b1.incr
            needPatching := st.needPatching ++ [(l, b1.getCounter)] }
    | _ => .err (.InvalidArgument a)
  | .Inc reg =>
    withB (st.builder.push (opToByte .IncReg)) fun b1 =>
    match reg with
    | .Reg r =>
      withB (b1.push r.toIndex) fun b2 => .ok { st with builder := b2 }
    | _ => .err (.InvalidArgument reg)
  | .Dec reg =>
    withB (st.builder.push (opToByte .DecReg)) fun b1 =>
    match reg with
    | .Reg r =>
      withB (b1.push r.toIndex) fun b2 => .ok { st with builder := b2 }
    | _ => .err (.InvalidArgument reg)
  | .Sys val =>
    withB (st.builder.push (opToByte .SysLit)) fun b1 =>
    match val with
    | .Lit lit =>
      withB (b1.push (lit % 256)) fun b2 => .ok { st with builder := b2 }
    | .Label _ => .panic
    | _ => .err (.InvalidArgument val)
  | .Ret =>
    withB (st.builder.push (opToByte .Ret)) fun b1 => .ok { st with builder := b1 }
  | .Hlt =>
    withB (st.builder.push (opToByte .Hlt)) fun b1 => .ok { st with builder := b1 }
  | .Nop =>
    withB (st.builder.push (opToByte .Nop)) fun b1 => .ok { st with builder := b1 }

/-- The whole linear pass: the `for node in input` loop. -/
def processNodes (st : AsmState) : List ASTNode → ARes AsmState
  | [] => .ok st
  | n :: rest => (processNode st n).bind fun st1 => processNodes st1 rest

/-- The patching pass: `for (label, mem_idx) in need_patching`, look the
label up (failing with `InvalidLabel`), rewind the cursor to the recorded
offset and write the 2-byte big-endian address. -/
def patchPass (labels : List (String × Nat)) :
    List (String × Nat) → MemoryBuilder → ARes MemoryBuilder
  | [], b => .ok b
  | (label, memIdx) :: rest, b =>
    match lookupA labels label with
    | none => .err (.InvalidLabel label)
    | some addr =>
      match (b.setCounter memIdx).pushU16 addr with
      | none => .panic
      | some b1 => patchPass labels rest b1

/-- The linear pass's initial state: a fresh builder over
`Memory::default()` and empty label/patch lists. -/
def initState : AsmState := ⟨⟨Memory.mkDefault, 0⟩, [], []⟩

/-- `Assembler::assemble`: linear pass, then patching pass, then build. -/
def assemble (input : List ASTNode) : ARes Memory :=
  (processNodes initState input).bind fun st =>
    (patchPass st.labelAddrs st.needPatching st.builder).bind fun b =>
      .ok b.build

end RustStack
namespace RustStack

/-! Basic algebra of the embedded operations, used by the symbolic
claim proofs below. -/

theorem to_u16_toBeBytes (v : Nat) : to_u16 (toBeBytes v) = v % 65536 := by
  simp only [to_u16, toBeBytes, List.getD, List.get?, Option.getD]
  omega

theorem Register.toIndex_lt (r : Register) : r.toIndex < 12 := by
  cases r <;> decide

theorem Memory.size_setBuf {m m' : Memory} {a b : Nat} {l : List Nat}
    (h : m.setBuf a b l = some m') : m'.size = m.size := by
  unfold Memory.setBuf at h
  split at h
  · cases h; rfl
  · cases h

theorem Memory.data_setBuf_out {m m' : Memory} {a b : Nat} {l : List Nat}
    (h : m.setBuf a b l = some m') (j : Nat) (hj : j < a ∨ b ≤ j) :
    m'.data j = m.data j := by
  unfold Memory.setBuf at h
  split at h
  · cases h
    simp only
    rw [if_neg]
    omega
  · cases h

theorem Memory.data_setBuf_in {m m' : Memory} {a b : Nat} {l : List Nat}
    (h : m.setBuf a b l = some m') (j : Nat) (h1 : a ≤ j) (h2 : j < b) :
    m'.data j = l.getD (j - a) 0 := by
  unfold Memory.setBuf at h
  split at h
  · cases h
    simp only
    rw [if_pos ⟨h1, h2⟩]
  · cases h

theorem Memory.setBuf_isSome {m : Memory} {a b : Nat} {l : List Nat}
    (h1 : a ≤ b) (h2 : b ≤ m.size) (h3 : l.length = b - a) :
    (m.setBuf a b l).isSome := by
  unfold Memory.setBuf
  rw [if_pos ⟨h1, h2, h3⟩]
  rfl

theorem Memory.getBuf_pair {m : Memory} {a : Nat} (h : a + 2 ≤ m.size) :
    m.getBuf a (a + 2) = some [m.data a, m.data (a + 1)] := by
  unfold Memory.getBuf
  rw [if_pos ⟨by omega, h⟩]
  congr 1
  have : a + 2 - a = 2 := by omega
  rw [this]
  rfl

theorem CPU.setReg_memory (c : CPU) (r : Register) (v : Nat) :
    (c.setReg r v).memory = c.memory := rfl

theorem CPU.setRegAt_memory (c : CPU) (i : Nat) (l : List Nat) :
    (c.setRegAt i l).memory = c.memory := rfl

theorem CPU.setReg_registers_size (c : CPU) (r : Register) (v : Nat) :
    (c.setReg r v).registers.size = c.registers.size := by
  unfold CPU.setReg
  cases h : c.registers.setBuf (r.toIndex * REGISTER_SIZE) (r.toIndex * REGISTER_SIZE + 2) (toBeBytes v) with
  | none => simp [h]
  | some m' => simp [h, Memory.size_setBuf h]

theorem CPU.setRegAt_registers_size (c : CPU) (i : Nat) (l : List Nat) :
    (c.setRegAt i l).registers.size = c.registers.size := by
  unfold CPU.setRegAt
  cases h : c.registers.setBuf i (i + 2) l with
  | none => simp [h]
  | some m' => simp [h, Memory.size_setBuf h]

theorem CPU.getReg_eq_data {c : CPU} {r : Register}
    (h : r.toIndex * REGISTER_SIZE + 2 ≤ c.registers.size) :
    c.getReg r = 256 * c.registers.data (r.toIndex * REGISTER_SIZE)
      + c.registers.data (r.toIndex * REGISTER_SIZE + 1) := by
  unfold CPU.getReg
  dsimp only
  rw [Memory.getBuf_pair h]
  rfl

theorem CPU.setReg_registers_data {c : CPU} {r : Register} (v : Nat)
    (h : r.toIndex * REGISTER_SIZE + 2 ≤ c.registers.size) (j : Nat) :
    (c.setReg r v).registers.data j =
      if r.toIndex * REGISTER_SIZE ≤ j ∧ j < r.toIndex * REGISTER_SIZE + 2
      then (toBeBytes v).getD (j - r.toIndex * REGISTER_SIZE) 0
      else c.registers.data j := by
  unfold CPU.setReg
  cases hs : c.registers.setBuf (r.toIndex * REGISTER_SIZE) (r.toIndex * REGISTER_SIZE + 2) (toBeBytes v) with
  | none =>
    exfalso
    have := Memory.setBuf_isSome (m := c.registers)
      (a := r.toIndex * REGISTER_SIZE) (b := r.toIndex * REGISTER_SIZE + 2)
      (l := toBeBytes v) (by omega) h (by simp [toBeBytes])
    rw [hs] at this
    simp at this
  | some m' =>
    simp only [hs, Option.getD_some]
    by_cases h1 : r.toIndex * REGISTER_SIZE ≤ j ∧ j < r.toIndex * REGISTER_SIZE + 2
    · rw [if_pos h1]
      exact Memory.data_setBuf_in hs j h1.1 h1.2
    · rw [if_neg h1]
      exact Memory.data_setBuf_out hs j (by omega)

theorem CPU.getReg_setReg_self {c : CPU} {r : Register} (v : Nat)
    (h24 : c.registers.size = 24) :
    (c.setReg r v).getReg r = v % 65536 := by
  have hlt := Register.toIndex_lt r
  have hle : r.toIndex * REGISTER_SIZE + 2 ≤ c.registers.size := by
    simp only [REGISTER_SIZE]; omega
  have hsz := CPU.setReg_registers_size c r v
  rw [CPU.getReg_eq_data (by omega)]
  rw [CPU.setReg_registers_data v hle, CPU.setReg_registers_data v hle]
  rw [if_pos ⟨by omega, by omega⟩, if_pos ⟨by omega, by omega⟩]
  have h1 : r.toIndex * REGISTER_SIZE - r.toIndex * REGISTER_SIZE = 0 := by omega
  have h2 : r.toIndex * REGISTER_SIZE + 1 - r.toIndex * REGISTER_SIZE = 1 := by omega
  rw [h1, h2]
  simp only [toBeBytes, List.getD, List.get?, Option.getD]
  omega

theorem CPU.getReg_setReg_ne {c : CPU} {r s : Register} (v : Nat)
    (h24 : c.registers.size = 24) (hne : s.toIndex ≠ r.toIndex) :
    (c.setReg r v).getReg s = c.getReg s := by
  have hr := Register.toIndex_lt r
  have hs := Register.toIndex_lt s
  have hler : r.toIndex * REGISTER_SIZE + 2 ≤ c.registers.size := by
    simp only [REGISTER_SIZE]; omega
  have hsz := CPU.setReg_registers_size c r v
  rw [CPU.getReg_eq_data (by simp only [REGISTER_SIZE] at *; omega),
      CPU.getReg_eq_data (by simp only [REGISTER_SIZE]; omega)]
  rw [CPU.setReg_registers_data v hler, CPU.setReg_registers_data v hler]
  rw [if_neg (by simp only [REGISTER_SIZE] at *; omega),
      if_neg (by simp only [REGISTER_SIZE] at *; omega)]

theorem CPU.fetch_ok {c : CPU} {ip : Nat}
    (hip : c.getReg .IP = ip) (hin : ip < c.memory.size) (h16 : ip + 1 ≤ 65535) :
    c.fetch = .ok (c.setReg .IP (ip + 1)) (c.memory.data ip) := by
  unfold CPU.fetch
  dsimp only
  rw [hip]
  unfold Memory.get
  rw [if_pos hin]
  unfold chkAdd16
  rw [if_pos h16]

theorem CPU.fetchBuf_two {c : CPU} {ip : Nat}
    (h24 : c.registers.size = 24)
    (hip : c.getReg .IP = ip) (hin : ip + 1 < c.memory.size) (h16 : ip + 2 ≤ 65535) :
    c.fetchBuf 2 = .ok ((c.setReg .IP (ip + 1)).setReg .IP (ip + 2))
      [c.memory.data ip, c.memory.data (ip + 1)] := by
  have hf1 : c.fetch = .ok (c.setReg .IP (ip + 1)) (c.memory.data ip) :=
    CPU.fetch_ok hip (by omega) (by omega)
  have hip2 : (c.setReg .IP (ip + 1)).getReg .IP = ip + 1 := by
    rw [CPU.getReg_setReg_self _ h24]
    omega
  have hf2 : (c.setReg .IP (ip + 1)).fetch =
      .ok ((c.setReg .IP (ip + 1)).setReg .IP (ip + 2)) (c.memory.data (ip + 1)) := by
    have := CPU.fetch_ok (c := c.setReg .IP (ip + 1)) hip2
      (by rw [CPU.setReg_memory]; omega) (by omega)
    rw [CPU.setReg_memory] at this
    exact this
  show (c.fetch).bind _ = _
  rw [hf1]
  show ((c.setReg .IP (ip + 1)).fetchBuf 1).bind _ = _
  show (((c.setReg .IP (ip+1)).fetch).bind _).bind _ = _
  rw [hf2]
  rfl

theorem CPU.fetchRegIdx_ok {c : CPU} {ip : Nat}
    (hip : c.getReg .IP = ip) (hin : ip < c.memory.size) (h16 : ip + 1 ≤ 65535) :
    c.fetchRegIdx = .ok (c.setReg .IP (ip + 1)) (c.memory.data ip % 12 * 2) := by
  unfold CPU.fetchRegIdx
  rw [CPU.fetch_ok hip hin h16]
  rfl

theorem CPU.push_ok {c : CPU} {s : Nat} {v : List Nat}
    (hs : c.getReg .SP = s) (h2 : 2 ≤ s) (hsz : s + 2 ≤ c.memory.size)
    (h16 : c.memory.size ≤ 65535) (hlen : v.length = 2) :
    c.push v = .ok
      (CPU.setReg
        { c with memory := ⟨c.memory.size,
            fun j => if s ≤ j ∧ j < s + 2 then v.getD (j - s) 0 else c.memory.data j⟩ }
        .SP (s - 2)) () := by
  unfold CPU.push
  dsimp only
  rw [hs]
  unfold chkAdd16
  rw [if_pos (show s + 2 ≤ 65535 by omega)]
  dsimp only
  unfold Memory.setBuf
  rw [if_pos ⟨by omega, by omega, by omega⟩]
  dsimp only
  unfold chkSub16
  rw [if_pos h2]

theorem CPU.pop_ok {c : CPU} {t : Nat}
    (hs : c.getReg .SP = t)
    (h16 : t + 2 ≤ 65535) (hsz : t + 4 ≤ c.memory.size) :
    c.pop = .ok (c.setReg .SP (t + 2))
      [c.memory.data (t + 2), c.memory.data (t + 3)] := by
  unfold CPU.pop
  rw [hs]
  unfold chkAdd16
  rw [if_pos h16]
  dsimp only
  rw [CPU.setReg_memory]
  rw [Memory.getBuf_pair (show t + 2 + 2 ≤ c.memory.size by omega)]

theorem CPU.pop_panic {c : CPU} {t : Nat}
    (hs : c.getReg .SP = t) (h16 : t + 2 ≤ 65535) (hsz : c.memory.size < t + 4) :
    c.pop = .panic (c.setReg .SP (t + 2)) := by
  unfold CPU.pop
  rw [hs]
  unfold chkAdd16
  rw [if_pos h16]
  dsimp only
  rw [CPU.setReg_memory]
  unfold Memory.getBuf
  rw [if_neg (by omega)]

theorem CPU.new_core (m : Memory) (h : 2 ≤ m.size) :
    ∃ R : Memory, CPU.new m = some ⟨m, R⟩ ∧ R.size = 24 ∧
      (∀ j, j < 20 → R.data j = 0) ∧
      R.data 20 = (m.size - 2) % 65536 / 256 % 256 ∧
      R.data 21 = (m.size - 2) % 65536 % 256 ∧
      R.data 22 = (m.size - 2) % 65536 / 256 % 256 ∧
      R.data 23 = (m.size - 2) % 65536 % 256 := by
  have hb : (toBeBytes ((m.size - 2) % 65536)).length = 2 := by simp [toBeBytes]
  have hsz0 : (Memory.new 24).size = 24 := by norm_num [Memory.new]
  have h1s : ((Memory.new 24).setBuf 20 22 (toBeBytes ((m.size - 2) % 65536))).isSome :=
    Memory.setBuf_isSome (by omega) (by omega) (by rw [hb])
  obtain ⟨r1, hr1⟩ := Option.isSome_iff_exists.mp h1s
  have hr1sz : r1.size = 24 := by rw [Memory.size_setBuf hr1, hsz0]
  have h2s : (r1.setBuf 22 24 (toBeBytes ((m.size - 2) % 65536))).isSome :=
    Memory.setBuf_isSome (by omega) (by omega) (by rw [hb])
  obtain ⟨r2, hr2⟩ := Option.isSome_iff_exists.mp h2s
  have hr2sz : r2.size = 24 := by rw [Memory.size_setBuf hr2, hr1sz]
  refine ⟨r2, ?_, hr2sz, ?_, ?_, ?_, ?_, ?_⟩
  · unfold CPU.new
    rw [if_pos (show 2 ≤ m.len from h)]
    dsimp only
    norm_num [Register.toIndex, REGISTER_SIZE, RegisterCount, Memory.len]
    rw [hr1]
    dsimp only [Option.bind]
    rw [hr2]
    rfl
  · intro j hj
    rw [Memory.data_setBuf_out hr2 j (by omega), Memory.data_setBuf_out hr1 j (by omega)]
    rfl
  · rw [Memory.data_setBuf_out hr2 20 (by omega), Memory.data_setBuf_in hr1 20 (by omega) (by omega)]
    simp [toBeBytes]
  · rw [Memory.data_setBuf_out hr2 21 (by omega), Memory.data_setBuf_in hr1 21 (by omega) (by omega)]
    simp [toBeBytes]
  · rw [Memory.data_setBuf_in hr2 22 (by omega) (by omega)]
    simp [toBeBytes]
  · rw [Memory.data_setBuf_in hr2 23 (by omega) (by omega)]
    simp [toBeBytes]

theorem CPU.mk2_facts (m : Memory) (h : 2 ≤ m.size) :
    CPU.new m = some (CPU.mk2 m) ∧
    (CPU.mk2 m).memory = m ∧
    (CPU.mk2 m).registers.size = 24 ∧
    (CPU.mk2 m).getReg .SP = (m.size - 2) % 65536 ∧
    (CPU.mk2 m).getReg .BP = (m.size - 2) % 65536 ∧
    (∀ r : Register, r.toIndex < 10 → (CPU.mk2 m).getReg r = 0) := by
  obtain ⟨R, hnew, hRsz, hlo, h20, h21, h22, h23⟩ := CPU.new_core m h
  have hmk : CPU.mk2 m = ⟨m, R⟩ := by
    unfold CPU.mk2
    rw [hnew]
    rfl
  have hv : (m.size - 2) % 65536 < 65536 := Nat.mod_lt _ (by omega)
  refine ⟨by rw [hnew, hmk], by rw [hmk], by rw [hmk]; exact hRsz, ?_, ?_, ?_⟩
  · rw [hmk, CPU.getReg_eq_data (by simp only [Register.toIndex, REGISTER_SIZE]; omega)]
    simp only [Register.toIndex, REGISTER_SIZE]
    norm_num
    rw [h20, h21]
    omega
  · rw [hmk, CPU.getReg_eq_data (by simp only [Register.toIndex, REGISTER_SIZE]; omega)]
    simp only [Register.toIndex, REGISTER_SIZE]
    norm_num
    rw [h22, h23]
    omega
  · intro r hr
    rw [hmk, CPU.getReg_eq_data (by simp only [REGISTER_SIZE] at *; omega)]
    simp only [REGISTER_SIZE]
    rw [hlo (r.toIndex * 2) (by omega), hlo (r.toIndex * 2 + 1) (by omega)]

end RustStack
namespace RustStack

theorem Register.ne_sp_bp_toIndex {r : Register} (hsp : r ≠ .SP) (hbp : r ≠ .BP) :
    r.toIndex < 10 := by
  cases r
  case SP => exact absurd rfl hsp
  case BP => exact absurd rfl hbp
  all_goals decide

end RustStack

/-- C9: `CPU::new` has the unstated precondition that the memory is at
least 2 bytes long: `memsize - 2` underflows (and the construction
aborts) on a shorter memory, and on any memory of length at least 2 (all
buffers the program can build are at most 65535 bytes) construction
succeeds with `SP = BP = length - 2` and every other register zero. -/
theorem C9_new_underflow (m : RustStack.Memory) :
    (m.len < 2 → RustStack.CPU.new m = none) ∧
    (2 ≤ m.len → m.len ≤ 65535 →
      RustStack.CPU.new m = some (RustStack.CPU.mk2 m) ∧
      (RustStack.CPU.mk2 m).getReg .SP = m.len - 2 ∧
      (RustStack.CPU.mk2 m).getReg .BP = m.len - 2 ∧
      ∀ r : RustStack.Register, r ≠ .SP → r ≠ .BP →
        (RustStack.CPU.mk2 m).getReg r = 0) := by
  constructor
  · intro h
    unfold RustStack.CPU.new
    rw [if_neg (by omega)]
  · intro h2 h16
    obtain ⟨hnew, hmem, h24, hSP, hBP, hother⟩ := RustStack.CPU.mk2_facts m h2
    have hmod : (m.size - 2) % 65536 = m.size - 2 :=
      Nat.mod_eq_of_lt (by simp only [RustStack.Memory.len] at h16; omega)
    refine ⟨hnew, ?_, ?_, ?_⟩
    · rw [hSP, hmod]; rfl
    · rw [hBP, hmod]; rfl
    · intro r hsp hbp
      exact hother r (RustStack.Register.ne_sp_bp_toIndex hsp hbp)

/-- C9 witness: a 1-byte memory aborts construction; on a 100-byte
memory `SP = 98` and `R1 = 0`. -/
theorem C9_witness :
    RustStack.CPU.new (RustStack.Memory.new 1) = none ∧
    (RustStack.CPU.mk2 (RustStack.Memory.new 100)).getReg .SP = 98 ∧
    (RustStack.CPU.mk2 (RustStack.Memory.new 100)).getReg .R1 = 0 := by
  refine ⟨(C9_new_underflow (RustStack.Memory.new 1)).1 (by decide), ?_, ?_⟩
  · exact (((C9_new_underflow (RustStack.Memory.new 100)).2 (by decide) (by decide)).2.1).trans
      (by decide)
  · exact ((C9_new_underflow (RustStack.Memory.new 100)).2 (by decide) (by decide)).2.2.2
      .R1 (by decide) (by decide)

/-- C10: executing `Pop` with the stack empty (`SP` at its initial value
`memsize - 2`) panics — the unwrap of the out-of-bounds 2-byte read at
`memsize..memsize+2` aborts rather than returning a `CpuError` — and the
failed step leaves `SP` already advanced to `memsize`. -/
theorem C10_pop_underflow (n : Nat) (h2 : 2 ≤ n) (h16 : n ≤ 65535) :
    (RustStack.CPU.mk2 (RustStack.Memory.load [0x18, 2] n)).getReg .SP = n - 2 ∧
    ((RustStack.CPU.mk2 (RustStack.Memory.load [0x18, 2] n)).step).isPanic = true ∧
    ((RustStack.CPU.mk2 (RustStack.Memory.load [0x18, 2] n)).step).isErr = false ∧
    ((RustStack.CPU.mk2 (RustStack.Memory.load [0x18, 2] n)).step).state.getReg .SP = n := by
  set m : RustStack.Memory := RustStack.Memory.load [0x18, 2] n with hm
  have hmsz : m.size = n := by
    rw [hm]
    show n % 65536 = n
    omega
  obtain ⟨hnew, hmem, h24, hSP, hBP, hother⟩ := RustStack.CPU.mk2_facts m (by omega)
  set c0 : RustStack.CPU := RustStack.CPU.mk2 m with hc0
  have hSP2 : c0.getReg .SP = n - 2 := by
    rw [hSP, hmsz, Nat.mod_eq_of_lt (by omega)]
  have hIP : c0.getReg .IP = 0 := hother .IP (by decide)
  have hd0 : c0.memory.data 0 = 0x18 := by rw [hmem]; rfl
  have hd1 : c0.memory.data 1 = 2 := by rw [hmem]; rfl
  have hf0 : c0.fetch = .ok (c0.setReg .IP 1) 0x18 := by
    have := RustStack.CPU.fetch_ok hIP (by rw [hmem, hmsz]; omega) (by omega)
    rw [hd0] at this
    exact this
  set c1 : RustStack.CPU := c0.setReg .IP 1 with hc1
  have h24a : c1.registers.size = 24 := by
    rw [hc1, RustStack.CPU.setReg_registers_size, h24]
  have hIP1 : c1.getReg .IP = 1 := by
    rw [hc1, RustStack.CPU.getReg_setReg_self _ h24]
  have hmem1 : c1.memory = m := by rw [hc1, RustStack.CPU.setReg_memory, hmem]
  have hfr : c1.fetchRegIdx = .ok (c1.setReg .IP 2) 4 := by
    have := RustStack.CPU.fetchRegIdx_ok hIP1 (by rw [hmem1, hmsz]; omega) (by omega)
    rw [hmem1] at this
    have hd : m.data 1 = 2 := by rw [hm]; rfl
    rw [hd] at this
    exact this
  set c2 : RustStack.CPU := c1.setReg .IP 2 with hc2
  have h24b : c2.registers.size = 24 := by
    rw [hc2, RustStack.CPU.setReg_registers_size, h24a]
  have hSPc2 : c2.getReg .SP = n - 2 := by
    rw [hc2, RustStack.CPU.getReg_setReg_ne _ h24a (by decide), hc1,
      RustStack.CPU.getReg_setReg_ne _ h24 (by decide), hSP2]
  have hmem2 : c2.memory = m := by rw [hc2, RustStack.CPU.setReg_memory, hmem1]
  have hpop : c2.pop = .panic (c2.setReg .SP (n - 2 + 2)) := by
    refine RustStack.CPU.pop_panic hSPc2 (by omega) ?_
    rw [hmem2, hmsz]
    omega
  have hstep : c0.step = .panic (c2.setReg .SP (n - 2 + 2)) := by
    unfold RustStack.CPU.step
    rw [hf0]
    show c1.execute (RustStack.byteToOp 0x18) = _
    show c1.execute .Pop = _
    unfold RustStack.CPU.execute
    rw [hfr]
    show (c2.pop).bind _ = _
    rw [hpop]
    rfl
  have hfin : (c2.setReg .SP (n - 2 + 2)).getReg .SP = n := by
    rw [RustStack.CPU.getReg_setReg_self _ h24b]
    omega
  refine ⟨hSP2, ?_, ?_, ?_⟩
  · rw [hstep]; rfl
  · rw [hstep]; rfl
  · rw [hstep]
    exact hfin

/-- C10 witness: on a fresh 100-byte machine the first `Pop` panics with
`SP` left at 100. -/
theorem C10_witness :
    ((RustStack.CPU.mk2 (RustStack.Memory.load [0x18, 2] 100)).step).isPanic = true ∧
    ((RustStack.CPU.mk2 (RustStack.Memory.load [0x18, 2] 100)).step).state.getReg .SP = 100 := by
  refine ⟨(C10_pop_underflow 100 (by decide) (by decide)).2.1, ?_⟩
  exact (C10_pop_underflow 100 (by decide) (by decide)).2.2.2
namespace RustStack

/-- Inverse of `Register.toIndex` (proof artifact). -/
def regOfIndex : Nat → Register
  | 0 => .IP | 1 => .ACC | 2 => .R1 | 3 => .R2 | 4 => .R3 | 5 => .R4
  | 6 => .R5 | 7 => .R6 | 8 => .R7 | 9 => .R8 | 10 => .SP | _ => .BP

theorem regOfIndex_toIndex (r : Register) : regOfIndex r.toIndex = r := by
  cases r <;> rfl

theorem Register.toIndex_injective {r s : Register} (h : r.toIndex = s.toIndex) : r = s := by
  rw [← regOfIndex_toIndex r, ← regOfIndex_toIndex s, h]

theorem Register.toIndex_ne {r s : Register} (h : r ≠ s) : r.toIndex ≠ s.toIndex :=
  fun hc => h (Register.toIndex_injective hc)

theorem CPU.getReg_withMem (c : CPU) (m : Memory) (r : Register) :
    ({ c with memory := m } : CPU).getReg r = c.getReg r := rfl

theorem CPU.regAt_toIndex (c : CPU) (r : Register) :
    c.regAt (r.toIndex * 2) = c.getReg r := rfl

theorem CPU.setRegAt_registers_data {c : CPU} {i : Nat} {l : List Nat}
    (hlen : l.length = 2) (hle : i + 2 ≤ c.registers.size) (j : Nat) :
    (c.setRegAt i l).registers.data j =
      if i ≤ j ∧ j < i + 2 then l.getD (j - i) 0 else c.registers.data j := by
  unfold CPU.setRegAt
  cases hs : c.registers.setBuf i (i + 2) l with
  | none =>
    exfalso
    have := Memory.setBuf_isSome (m := c.registers) (a := i) (b := i + 2) (l := l)
      (by omega) hle (by omega)
    rw [hs] at this
    simp at this
  | some m' =>
    simp only [hs, Option.getD_some]
    by_cases h1 : i ≤ j ∧ j < i + 2
    · rw [if_pos h1]
      exact Memory.data_setBuf_in hs j h1.1 h1.2
    · rw [if_neg h1]
      exact Memory.data_setBuf_out hs j (by omega)

theorem CPU.getReg_setRegAt_ne {c : CPU} {i : Nat} {l : List Nat} {r : Register}
    (h24 : c.registers.size = 24) (hlen : l.length = 2) (hle : i + 2 ≤ 24)
    (hdis : i + 2 ≤ r.toIndex * 2 ∨ r.toIndex * 2 + 2 ≤ i) :
    (c.setRegAt i l).getReg r = c.getReg r := by
  have hr := Register.toIndex_lt r
  have hsz := CPU.setRegAt_registers_size c i l
  rw [CPU.getReg_eq_data (by simp only [REGISTER_SIZE] at *; omega),
      CPU.getReg_eq_data (by simp only [REGISTER_SIZE]; omega)]
  rw [CPU.setRegAt_registers_data hlen (by omega),
      CPU.setRegAt_registers_data hlen (by omega)]
  rw [if_neg (by simp only [REGISTER_SIZE] at *; omega),
      if_neg (by simp only [REGISTER_SIZE] at *; omega)]

end RustStack

/-- C4 as amended: `AddRegReg Ra,Rb` stores `regs[Ra] + regs[Rb]` into
`ACC` whenever the mathematical sum fits in 16 bits (in which case it
also equals the sum mod 2^16); when the sum exceeds 0xFFFF, the CPU's
unchecked 16-bit addition overflows and the instruction panics instead
of storing the wrapped value. -/
theorem C4_add_overflow (c : RustStack.CPU) (ip x y : Nat)
    (ra rb : RustStack.Register)
    (h24 : c.registers.size = 24)
    (hsz : c.memory.size ≤ 65535)
    (hip : c.getReg .IP = ip)
    (hin : ip + 1 < c.memory.size)
    (hra : c.memory.data ip % 12 = ra.toIndex)
    (hrb : c.memory.data (ip + 1) % 12 = rb.toIndex)
    (hraip : ra ≠ .IP) (hrbip : rb ≠ .IP)
    (hx : c.getReg ra = x) (hy : c.getReg rb = y) :
    (x + y ≤ 65535 →
      (c.execute .AddRegReg).isOk = true ∧
      (c.execute .AddRegReg).state.getReg .ACC = x + y ∧
      (c.execute .AddRegReg).state.getReg .ACC = (x + y) % 65536) ∧
    (65535 < x + y → (c.execute .AddRegReg).isPanic = true) := by
  have hf1 : c.fetchRegIdx = .ok (c.setReg .IP (ip + 1)) (ra.toIndex * 2) := by
    have := RustStack.CPU.fetchRegIdx_ok hip (by omega) (by omega)
    rw [hra] at this
    exact this
  set c1 : RustStack.CPU := c.setReg .IP (ip + 1) with hc1
  have h24a : c1.registers.size = 24 := by
    rw [hc1, RustStack.CPU.setReg_registers_size, h24]
  have hip1 : c1.getReg .IP = ip + 1 := by
    rw [hc1, RustStack.CPU.getReg_setReg_self _ h24]
    omega
  have hmem1 : c1.memory = c.memory := by rw [hc1, RustStack.CPU.setReg_memory]
  have hf2 : c1.fetchRegIdx = .ok (c1.setReg .IP (ip + 2)) (rb.toIndex * 2) := by
    have := RustStack.CPU.fetchRegIdx_ok hip1 (by rw [hmem1]; omega) (by omega)
    rw [hmem1, hrb] at this
    exact this
  set c2 : RustStack.CPU := c1.setReg .IP (ip + 2) with hc2
  have h24b : c2.registers.size = 24 := by
    rw [hc2, RustStack.CPU.setReg_registers_size, h24a]
  have hxa : c2.regAt (ra.toIndex * 2) = x := by
    rw [RustStack.CPU.regAt_toIndex, hc2,
      RustStack.CPU.getReg_setReg_ne _ h24a (RustStack.Register.toIndex_ne hraip), hc1,
      RustStack.CPU.getReg_setReg_ne _ h24 (RustStack.Register.toIndex_ne hraip), hx]
  have hyb : c2.regAt (rb.toIndex * 2) = y := by
    rw [RustStack.CPU.regAt_toIndex, hc2,
      RustStack.CPU.getReg_setReg_ne _ h24a (RustStack.Register.toIndex_ne hrbip), hc1,
      RustStack.CPU.getReg_setReg_ne _ h24 (RustStack.Register.toIndex_ne hrbip), hy]
  have hexe : c.execute .AddRegReg =
      match RustStack.chkAdd16 x y with
      | none => .panic c2
      | some result => .ok (c2.setReg .ACC result) false := by
    show (c.fetchRegIdx).bind _ = _
    rw [hf1]
    show (c1.fetchRegIdx).bind _ = _
    rw [hf2]
    show (match RustStack.chkAdd16 (c2.regAt (ra.toIndex * 2)) (c2.regAt (rb.toIndex * 2)) with
      | none => RustStack.Res.panic c2
      | some result => RustStack.Res.ok (c2.setReg .ACC result) false) = _
    rw [hxa, hyb]
  constructor
  · intro hle
    rw [hexe]
    unfold RustStack.chkAdd16
    rw [if_pos hle]
    refine ⟨rfl, ?_, ?_⟩
    · show (c2.setReg .ACC (x + y)).getReg .ACC = x + y
      rw [RustStack.CPU.getReg_setReg_self _ h24b]
      omega
    · show (c2.setReg .ACC (x + y)).getReg .ACC = (x + y) % 65536
      rw [RustStack.CPU.getReg_setReg_self _ h24b]
  · intro hgt
    rw [hexe]
    unfold RustStack.chkAdd16
    rw [if_neg (by omega)]
    rfl

/-- C4 witness: with `R1 = 5` and `R2 = 7` the add stores 12 in `ACC`. -/
theorem C4_witness :
    ((((RustStack.CPU.mk2 (RustStack.Memory.load [2, 3] 100)).setReg .R1 5).setReg .R2 7).execute
      .AddRegReg).state.getReg .ACC = 12 := by
  have h := C4_add_overflow
    (((RustStack.CPU.mk2 (RustStack.Memory.load [2, 3] 100)).setReg .R1 5).setReg .R2 7)
    0 5 7 .R1 .R2 (by decide) (by decide) (by decide) (by decide) (by decide) (by decide)
    (by decide) (by decide) (by decide) (by decide)
  exact (h.1 (by decide)).2.1

/-- C1 as amended: the conditional-jump arm the CPU implements
(`JmpNELit`) decodes the 2-byte comparison value first and the 2-byte
target address second; when the value differs from `ACC`, `IP` is set to
that address, and otherwise `IP` is left just past the operands. -/
theorem C1_jmpne_order (c : RustStack.CPU) (ip v a acc : Nat)
    (h24 : c.registers.size = 24)
    (hsz : c.memory.size ≤ 65535)
    (hip : c.getReg .IP = ip)
    (hin : ip + 3 < c.memory.size)
    (hacc : c.getReg .ACC = acc)
    (hv : 256 * c.memory.data ip + c.memory.data (ip + 1) = v)
    (ha : 256 * c.memory.data (ip + 2) + c.memory.data (ip + 3) = a)
    (ha16 : a < 65536) :
    (c.execute .JmpNELit).isOk = true ∧
    (v ≠ acc → (c.execute .JmpNELit).state.getReg .IP = a) ∧
    (v = acc → (c.execute .JmpNELit).state.getReg .IP = ip + 4) := by
  have hf1 : c.fetchBuf 2 = .ok ((c.setReg .IP (ip + 1)).setReg .IP (ip + 2))
      [c.memory.data ip, c.memory.data (ip + 1)] :=
    RustStack.CPU.fetchBuf_two h24 hip (by omega) (by omega)
  set c2 : RustStack.CPU := (c.setReg .IP (ip + 1)).setReg .IP (ip + 2) with hc2
  have h24b : c2.registers.size = 24 := by
    rw [hc2, RustStack.CPU.setReg_registers_size, RustStack.CPU.setReg_registers_size, h24]
  have hip2 : c2.getReg .IP = ip + 2 := by
    rw [hc2, RustStack.CPU.getReg_setReg_self _ (by
      rw [RustStack.CPU.setReg_registers_size, h24])]
    omega
  have hmem2 : c2.memory = c.memory := rfl
  have hf2 : c2.fetchBuf 2 = .ok ((c2.setReg .IP (ip + 3)).setReg .IP (ip + 4))
      [c.memory.data (ip + 2), c.memory.data (ip + 3)] := by
    have := RustStack.CPU.fetchBuf_two h24b hip2 (by rw [hmem2]; omega) (by omega)
    rw [hmem2] at this
    exact this
  set c4 : RustStack.CPU := (c2.setReg .IP (ip + 3)).setReg .IP (ip + 4) with hc4
  have h24c : c4.registers.size = 24 := by
    rw [hc4, RustStack.CPU.setReg_registers_size, RustStack.CPU.setReg_registers_size, h24b]
  have hacc4 : c4.getReg .ACC = acc := by
    rw [hc4, RustStack.CPU.getReg_setReg_ne _ (by
        rw [RustStack.CPU.setReg_registers_size, h24b]) (by decide),
      RustStack.CPU.getReg_setReg_ne _ h24b (by decide), hc2,
      RustStack.CPU.getReg_setReg_ne _ (by
        rw [RustStack.CPU.setReg_registers_size, h24]) (by decide),
      RustStack.CPU.getReg_setReg_ne _ h24 (by decide), hacc]
  have hexe : c.execute .JmpNELit =
      if v ≠ acc then .ok (c4.setReg .IP a) false else .ok c4 false := by
    show (c.fetchBuf 2).bind _ = _
    rw [hf1]
    show (c2.fetchBuf 2).bind _ = _
    rw [hf2]
    show (if RustStack.to_u16 [c.memory.data ip, c.memory.data (ip + 1)] ≠ c4.getReg .ACC
      then RustStack.Res.ok
        (c4.setReg .IP (RustStack.to_u16 [c.memory.data (ip + 2), c.memory.data (ip + 3)])) false
      else RustStack.Res.ok c4 false) = _
    have hvv : RustStack.to_u16 [c.memory.data ip, c.memory.data (ip + 1)] = v := by
      rw [← hv]; rfl
    have haa : RustStack.to_u16 [c.memory.data (ip + 2), c.memory.data (ip + 3)] = a := by
      rw [← ha]; rfl
    rw [hvv, haa, hacc4]
  refine ⟨?_, ?_, ?_⟩
  · rw [hexe]
    by_cases hca : v = acc
    · rw [if_neg (by simp [hca])]
      rfl
    · rw [if_pos hca]
      rfl
  · intro hne
    rw [hexe, if_pos hne]
    show (c4.setReg .IP a).getReg .IP = a
    rw [RustStack.CPU.getReg_setReg_self _ h24c]
    omega
  · intro heq
    rw [hexe, if_neg (by simp [heq])]
    show c4.getReg .IP = ip + 4
    rw [hc4, RustStack.CPU.getReg_setReg_self _ (by
      rw [RustStack.CPU.setReg_registers_size, h24b])]
    omega

/-- C1 witness: operand words `0x0005` then `0x0009` with `ACC = 0`
jump to `0x0009`. -/
theorem C1_witness :
    ((RustStack.CPU.mk2 (RustStack.Memory.load [0x00, 0x05, 0x00, 0x09, 0] 100)).execute
      .JmpNELit).state.getReg .IP = 9 := by
  have h := C1_jmpne_order
    (RustStack.CPU.mk2 (RustStack.Memory.load [0x00, 0x05, 0x00, 0x09, 0] 100))
    0 5 9 0 (by decide) (by decide) (by decide) (by decide) (by decide) (by decide)
    (by decide) (by decide)
  exact h.2.1 (by decide)
namespace RustStack

theorem to_u16_pair (x y : Nat) : to_u16 [x, y] = 256 * x + y := rfl

/-- Executing a `Pop` instruction whose register operand is not `SP`:
the operand byte is fetched, `SP` advances by 2, the popped word lands in
the register file, and main memory is untouched. -/
theorem CPU.executePop_spec {c : CPU} {q t k : Nat}
    (h24 : c.registers.size = 24)
    (hsz : c.memory.size ≤ 65535)
    (hq : c.getReg .IP = q)
    (hin : q < c.memory.size)
    (hk : c.memory.data q % 12 = k)
    (hknot : k ≠ 10)
    (hs : c.getReg .SP = t)
    (hst : t + 4 ≤ c.memory.size) :
    (c.execute .Pop).isOk = true ∧
    (c.execute .Pop).state.getReg .SP = t + 2 ∧
    (c.execute .Pop).state.memory = c.memory := by
  have hklt : k < 12 := by
    rw [← hk]
    exact Nat.mod_lt _ (by omega)
  have hf : c.fetchRegIdx = .ok (c.setReg .IP (q + 1)) (k * 2) := by
    have := CPU.fetchRegIdx_ok hq (by omega) (by omega)
    rw [hk] at this
    exact this
  set c1 : CPU := c.setReg .IP (q + 1) with hc1
  have h24a : c1.registers.size = 24 := by
    rw [hc1, CPU.setReg_registers_size, h24]
  have hsp1 : c1.getReg .SP = t := by
    rw [hc1, CPU.getReg_setReg_ne _ h24 (by decide), hs]
  have hmem1 : c1.memory = c.memory := rfl
  have hpop : c1.pop = .ok (c1.setReg .SP (t + 2))
      [c1.memory.data (t + 2), c1.memory.data (t + 3)] :=
    CPU.pop_ok hsp1 (by omega) (by rw [hmem1]; omega)
  have hexe : c.execute .Pop =
      .ok ((c1.setReg .SP (t + 2)).setRegAt (k * 2)
        [c1.memory.data (t + 2), c1.memory.data (t + 3)]) false := by
    show (c.fetchRegIdx).bind _ = _
    rw [hf]
    show (c1.pop).bind _ = _
    rw [hpop]
    rfl
  have h24b : (c1.setReg .SP (t + 2)).registers.size = 24 := by
    rw [CPU.setReg_registers_size, h24a]
  refine ⟨by rw [hexe]; rfl, ?_, by rw [hexe]; rfl⟩
  rw [hexe]
  show ((c1.setReg .SP (t + 2)).setRegAt (k * 2) _).getReg .SP = t + 2
  rw [CPU.getReg_setRegAt_ne h24b (by rfl) (by omega)
    (by show k * 2 + 2 ≤ 20 ∨ 22 ≤ k * 2; omega)]
  rw [CPU.getReg_setReg_self _ h24a]
  omega

/-- Executing `PshLit`: the two literal bytes are fetched and written at
`[SP, SP+2)`, and `SP` drops by 2. -/
theorem CPU.executePshLit_spec {c : CPU} {ip s : Nat}
    (h24 : c.registers.size = 24)
    (hsz : c.memory.size ≤ 65535)
    (hip : c.getReg .IP = ip)
    (hin : ip + 1 < c.memory.size)
    (hs : c.getReg .SP = s)
    (h2 : 2 ≤ s)
    (hst : s + 2 ≤ c.memory.size) :
    ∃ c3, c.execute .PshLit = .ok c3 false ∧
      c3.getReg .IP = ip + 2 ∧
      c3.getReg .SP = s - 2 ∧
      c3.registers.size = 24 ∧
      c3.memory.size = c.memory.size ∧
      (∀ j, j < s → c3.memory.data j = c.memory.data j) ∧
      (∀ j, s + 2 ≤ j → c3.memory.data j = c.memory.data j) ∧
      c3.memory.data s = c.memory.data ip ∧
      c3.memory.data (s + 1) = c.memory.data (ip + 1) := by
  have hf1 : c.fetchBuf 2 = .ok ((c.setReg .IP (ip + 1)).setReg .IP (ip + 2))
      [c.memory.data ip, c.memory.data (ip + 1)] :=
    CPU.fetchBuf_two h24 hip (by omega) (by omega)
  set c2 : CPU := (c.setReg .IP (ip + 1)).setReg .IP (ip + 2) with hc2
  have h24b : c2.registers.size = 24 := by
    rw [hc2, CPU.setReg_registers_size, CPU.setReg_registers_size, h24]
  have hip2 : c2.getReg .IP = ip + 2 := by
    rw [hc2, CPU.getReg_setReg_self _ (by rw [CPU.setReg_registers_size, h24])]
    omega
  have hsp2 : c2.getReg .SP = s := by
    rw [hc2, CPU.getReg_setReg_ne _ (by rw [CPU.setReg_registers_size, h24]) (by decide),
      CPU.getReg_setReg_ne _ h24 (by decide), hs]
  have hmem2 : c2.memory = c.memory := rfl
  have hpush := CPU.push_ok (v := [c.memory.data ip, c.memory.data (ip + 1)])
    hsp2 h2 (by rw [hmem2]; omega) (by rw [hmem2]; omega) rfl
  set M : Memory := ⟨c2.memory.size,
    fun j => if s ≤ j ∧ j < s + 2
      then [c.memory.data ip, c.memory.data (ip + 1)].getD (j - s) 0
      else c2.memory.data j⟩ with hM
  set c3 : CPU := CPU.setReg { c2 with memory := M } .SP (s - 2) with hc3
  refine ⟨c3, ?_, ?_, ?_, ?_, ?_, ?_, ?_, ?_, ?_⟩
  · show (c.fetchBuf 2).bind _ = _
    rw [hf1]
    show (c2.push [c.memory.data ip, c.memory.data (ip + 1)]).bind _ = _
    rw [hpush]
    rfl
  · rw [hc3, CPU.getReg_setReg_ne _ (by rw [show ({ c2 with memory := M } : CPU).registers = c2.registers from rfl, h24b]) (by decide)]
    rw [CPU.getReg_withMem, hip2]
  · rw [hc3, CPU.getReg_setReg_self _ (by rw [show ({ c2 with memory := M } : CPU).registers = c2.registers from rfl, h24b])]
    omega
  · rw [hc3, CPU.setReg_registers_size]
    exact h24b
  · rw [hc3, CPU.setReg_memory]
    rfl
  · intro j hj
    rw [hc3, CPU.setReg_memory]
    show M.data j = c.memory.data j
    rw [hM]
    show (if s ≤ j ∧ j < s + 2 then _ else c2.memory.data j) = c.memory.data j
    rw [if_neg (by omega), hmem2]
  · intro j hj
    rw [hc3, CPU.setReg_memory]
    show M.data j = c.memory.data j
    rw [hM]
    show (if s ≤ j ∧ j < s + 2 then _ else c2.memory.data j) = c.memory.data j
    rw [if_neg (by omega), hmem2]
  · rw [hc3, CPU.setReg_memory]
    show M.data s = c.memory.data ip
    rw [hM]
    show (if s ≤ s ∧ s < s + 2 then
      [c.memory.data ip, c.memory.data (ip + 1)].getD (s - s) 0 else c2.memory.data s) = _
    rw [if_pos ⟨by omega, by omega⟩, show s - s = 0 by omega]
    rfl
  · rw [hc3, CPU.setReg_memory]
    show M.data (s + 1) = c.memory.data (ip + 1)
    rw [hM]
    show (if s ≤ s + 1 ∧ s + 1 < s + 2 then
      [c.memory.data ip, c.memory.data (ip + 1)].getD (s + 1 - s) 0
      else c2.memory.data (s + 1)) = _
    rw [if_pos ⟨by omega, by omega⟩, show s + 1 - s = 1 by omega]
    rfl

end RustStack
namespace RustStack

/-- Executing `PshReg`: the register-index byte is fetched, the named
register's two bytes are written at `[SP, SP+2)`, `SP` drops by 2, and
memory outside `[SP, SP+2)` is untouched. -/
theorem CPU.executePshReg_spec {c : CPU} {ip s : Nat}
    (h24 : c.registers.size = 24)
    (hsz : c.memory.size ≤ 65535)
    (hip : c.getReg .IP = ip)
    (hin : ip < c.memory.size)
    (hs : c.getReg .SP = s)
    (h2 : 2 ≤ s)
    (hst : s + 2 ≤ c.memory.size) :
    ∃ c3, c.execute .PshReg = .ok c3 false ∧
      c3.getReg .IP = ip + 1 ∧
      c3.getReg .SP = s - 2 ∧
      c3.registers.size = 24 ∧
      c3.memory.size = c.memory.size ∧
      (∀ j, j < s → c3.memory.data j = c.memory.data j) ∧
      (∀ j, s + 2 ≤ j → c3.memory.data j = c.memory.data j) := by
  have hklt : c.memory.data ip % 12 < 12 := Nat.mod_lt _ (by omega)
  have hf : c.fetchRegIdx = .ok (c.setReg .IP (ip + 1)) (c.memory.data ip % 12 * 2) :=
    CPU.fetchRegIdx_ok hip (by omega) (by omega)
  set i : Nat := c.memory.data ip % 12 * 2 with hi
  set c1 : CPU := c.setReg .IP (ip + 1) with hc1
  have h24a : c1.registers.size = 24 := by
    rw [hc1, CPU.setReg_registers_size, h24]
  have hip1 : c1.getReg .IP = ip + 1 := by
    rw [hc1, CPU.getReg_setReg_self _ h24]
    omega
  have hsp1 : c1.getReg .SP = s := by
    rw [hc1, CPU.getReg_setReg_ne _ h24 (by decide), hs]
  have hmem1 : c1.memory = c.memory := rfl
  have hbuf : c1.registers.getBuf i (i + 2) =
      some [c1.registers.data i, c1.registers.data (i + 1)] :=
    Memory.getBuf_pair (by omega)
  have hpush := CPU.push_ok (v := [c1.registers.data i, c1.registers.data (i + 1)])
    hsp1 h2 (by rw [hmem1]; omega) (by rw [hmem1]; omega) rfl
  set M : Memory := ⟨c1.memory.size,
    fun j => if s ≤ j ∧ j < s + 2
      then [c1.registers.data i, c1.registers.data (i + 1)].getD (j - s) 0
      else c1.memory.data j⟩ with hM
  set c3 : CPU := CPU.setReg { c1 with memory := M } .SP (s - 2) with hc3
  have hregs : ({ c1 with memory := M } : CPU).registers = c1.registers := rfl
  refine ⟨c3, ?_, ?_, ?_, ?_, ?_, ?_, ?_⟩
  · show (c.fetchRegIdx).bind _ = _
    rw [hf]
    show (c1.push ((c1.registers.getBuf i (i + 2)).getD [0, 0])).bind _ = _
    rw [hbuf]
    show (c1.push [c1.registers.data i, c1.registers.data (i + 1)]).bind _ = _
    rw [hpush]
    rfl
  · rw [hc3, CPU.getReg_setReg_ne _ (by rw [hregs, h24a]) (by decide),
      CPU.getReg_withMem, hip1]
  · rw [hc3, CPU.getReg_setReg_self _ (by rw [hregs, h24a])]
    omega
  · rw [hc3, CPU.setReg_registers_size]
    rw [hregs] at *
    exact h24a
  · rw [hc3, CPU.setReg_memory]
    rfl
  · intro j hj
    rw [hc3, CPU.setReg_memory]
    show M.data j = c.memory.data j
    rw [hM]
    show (if s ≤ j ∧ j < s + 2 then _ else c1.memory.data j) = c.memory.data j
    rw [if_neg (by omega), hmem1]
  · intro j hj
    rw [hc3, CPU.setReg_memory]
    show M.data j = c.memory.data j
    rw [hM]
    show (if s ≤ j ∧ j < s + 2 then _ else c1.memory.data j) = c.memory.data j
    rw [if_neg (by omega), hmem1]

end RustStack

/-- C7 as amended: a `Psh` (`PshLit` or `PshReg`) immediately followed by
a `Pop` (whose register operand is not `SP`) restores `SP` to its value
before the push, and every memory byte from `SP + 2` upward is unchanged;
the pair's own slot at `[SP, SP+2)` — which also lies above the final
`SP` — is rewritten by the push with the transferred value. -/
theorem C7_push_pop_pair :
    (∀ (c : RustStack.CPU) (ip s : Nat),
      c.registers.size = 24 → c.memory.size ≤ 65535 →
      c.getReg .IP = ip → c.getReg .SP = s →
      ip + 2 < c.memory.size → ip + 2 < s → 2 ≤ s → s + 2 ≤ c.memory.size →
      c.memory.data (ip + 2) % 12 ≠ 10 →
      ((c.execute .PshLit).isOk = true ∧
       ((c.execute .PshLit).state.execute .Pop).isOk = true ∧
       ((c.execute .PshLit).state.execute .Pop).state.getReg .SP = s ∧
       ∀ a, s + 2 ≤ a →
         ((c.execute .PshLit).state.execute .Pop).state.memory.data a = c.memory.data a)) ∧
    (∀ (c : RustStack.CPU) (ip s : Nat),
      c.registers.size = 24 → c.memory.size ≤ 65535 →
      c.getReg .IP = ip → c.getReg .SP = s →
      ip + 1 < c.memory.size → ip + 1 < s → 2 ≤ s → s + 2 ≤ c.memory.size →
      c.memory.data (ip + 1) % 12 ≠ 10 →
      ((c.execute .PshReg).isOk = true ∧
       ((c.execute .PshReg).state.execute .Pop).isOk = true ∧
       ((c.execute .PshReg).state.execute .Pop).state.getReg .SP = s ∧
       ∀ a, s + 2 ≤ a →
         ((c.execute .PshReg).state.execute .Pop).state.memory.data a = c.memory.data a)) := by
  constructor
  · intro c ip s h24 hsz hip hs hin hsep h2 hst hknot
    obtain ⟨c3, hexe, hip3, hsp3, h24c, hszc, hlo, hhi, hslot0, hslot1⟩ :=
      RustStack.CPU.executePshLit_spec h24 hsz hip (by omega) hs h2 hst
    have hd2 : c3.memory.data (ip + 2) = c.memory.data (ip + 2) := hlo (ip + 2) (by omega)
    obtain ⟨hok2, hsp2, hmem2⟩ := RustStack.CPU.executePop_spec
      (q := ip + 2) (t := s - 2) (k := c.memory.data (ip + 2) % 12)
      h24c (by omega) hip3 (by omega) (by rw [hd2]) hknot hsp3 (by omega)
    rw [hexe]
    show _ ∧ (c3.execute .Pop).isOk = true ∧
      (c3.execute .Pop).state.getReg .SP = s ∧ _
    refine ⟨rfl, hok2, by rw [hsp2]; omega, ?_⟩
    intro a ha
    show (c3.execute .Pop).state.memory.data a = c.memory.data a
    rw [hmem2]
    exact hhi a ha
  · intro c ip s h24 hsz hip hs hin hsep h2 hst hknot
    obtain ⟨c3, hexe, hip3, hsp3, h24c, hszc, hlo, hhi⟩ :=
      RustStack.CPU.executePshReg_spec h24 hsz hip (by omega) hs h2 hst
    have hd1 : c3.memory.data (ip + 1) = c.memory.data (ip + 1) := hlo (ip + 1) (by omega)
    obtain ⟨hok2, hsp2, hmem2⟩ := RustStack.CPU.executePop_spec
      (q := ip + 1) (t := s - 2) (k := c.memory.data (ip + 1) % 12)
      h24c (by omega) hip3 (by omega) (by rw [hd1]) hknot hsp3 (by omega)
    rw [hexe]
    show _ ∧ (c3.execute .Pop).isOk = true ∧
      (c3.execute .Pop).state.getReg .SP = s ∧ _
    refine ⟨rfl, hok2, by rw [hsp2]; omega, ?_⟩
    intro a ha
    show (c3.execute .Pop).state.memory.data a = c.memory.data a
    rw [hmem2]
    exact hhi a ha

/-- C7 witness: `PshLit 0x1234` then `Pop R1` on a concrete 100-byte
machine ends with `SP` back at 98. -/
theorem C7_witness :
    ((((RustStack.CPU.mk2 (RustStack.Memory.load [0x12, 0x34, 2] 100)).execute
      .PshLit).state.execute .Pop).state.getReg .SP = 98) := by
  have h := C7_push_pop_pair.1
    (RustStack.CPU.mk2 (RustStack.Memory.load [0x12, 0x34, 2] 100)) 0 98
    (by decide) (by decide) (by decide) (by decide) (by decide) (by decide)
    (by decide) (by decide) (by decide)
  exact h.2.2.1
/-- C8: call/return discipline. Part 1 (`CalLit`): the call pushes the
address of the byte just past its 2-byte operand (`ip + 2`, big-endian)
at `[SP, SP+2)`, drops `SP` by 2 and jumps to the fetched address. Part 2
(`CalReg`): the same with a 1-byte register operand, pushing `ip + 1` and
jumping to the register's value. Part 3 (`Ret`): from any state whose
`SP` is back at its post-call value (stack balanced) and whose return
slot at `[s, s+2)` still holds a 16-bit value `ra`, `Ret` pops it,
restoring `SP` to the pre-call `s` and setting `IP := ra` — with
`ra = ip + 2` (or `ip + 1`) this is the byte after the call's operands. -/
theorem C8_cal_ret :
    (∀ (c : RustStack.CPU) (ip s : Nat),
      c.registers.size = 24 → c.memory.size ≤ 65535 →
      c.getReg .IP = ip → c.getReg .SP = s →
      ip + 1 < c.memory.size → 2 ≤ s → s + 2 ≤ c.memory.size →
      c.memory.data ip < 256 → c.memory.data (ip + 1) < 256 →
      ((c.execute .CalLit).isOk = true ∧
       (c.execute .CalLit).state.getReg .IP =
         256 * c.memory.data ip + c.memory.data (ip + 1) ∧
       (c.execute .CalLit).state.getReg .SP = s - 2 ∧
       (c.execute .CalLit).state.memory.data s = (ip + 2) / 256 % 256 ∧
       (c.execute .CalLit).state.memory.data (s + 1) = (ip + 2) % 256 ∧
       ∀ a, a < s ∨ s + 2 ≤ a →
         (c.execute .CalLit).state.memory.data a = c.memory.data a)) ∧
    (∀ (c : RustStack.CPU) (ip s : Nat) (r : RustStack.Register),
      c.registers.size = 24 → c.memory.size ≤ 65535 →
      c.getReg .IP = ip → c.getReg .SP = s →
      ip < c.memory.size → 2 ≤ s → s + 2 ≤ c.memory.size →
      c.memory.data ip % 12 = r.toIndex → r ≠ .IP → r ≠ .SP →
      c.getReg r < 65536 →
      ((c.execute .CalReg).isOk = true ∧
       (c.execute .CalReg).state.getReg .IP = c.getReg r ∧
       (c.execute .CalReg).state.getReg .SP = s - 2 ∧
       (c.execute .CalReg).state.memory.data s = (ip + 1) / 256 % 256 ∧
       (c.execute .CalReg).state.memory.data (s + 1) = (ip + 1) % 256 ∧
       ∀ a, a < s ∨ s + 2 ≤ a →
         (c.execute .CalReg).state.memory.data a = c.memory.data a)) ∧
    (∀ (d : RustStack.CPU) (s ra : Nat),
      d.registers.size = 24 → d.memory.size ≤ 65535 →
      d.getReg .SP = s - 2 → 2 ≤ s → s + 2 ≤ d.memory.size →
      d.memory.data s = ra / 256 % 256 → d.memory.data (s + 1) = ra % 256 →
      ra < 65536 →
      ((d.execute .Ret).isOk = true ∧
       (d.execute .Ret).state.getReg .IP = ra ∧
       (d.execute .Ret).state.getReg .SP = s)) := by
  refine ⟨?_, ?_, ?_⟩
  · intro c ip s h24 hsz hip hs hin h2 hst hb0 hb1
    have hf1 : c.fetchBuf 2 = .ok ((c.setReg .IP (ip + 1)).setReg .IP (ip + 2))
        [c.memory.data ip, c.memory.data (ip + 1)] :=
      RustStack.CPU.fetchBuf_two h24 hip (by omega) (by omega)
    set c2 : RustStack.CPU := (c.setReg .IP (ip + 1)).setReg .IP (ip + 2) with hc2
    have h24b : c2.registers.size = 24 := by
      rw [hc2, RustStack.CPU.setReg_registers_size, RustStack.CPU.setReg_registers_size, h24]
    have hip2 : c2.getReg .IP = ip + 2 := by
      rw [hc2, RustStack.CPU.getReg_setReg_self _ (by
        rw [RustStack.CPU.setReg_registers_size, h24])]
      omega
    have hsp2 : c2.getReg .SP = s := by
      rw [hc2, RustStack.CPU.getReg_setReg_ne _ (by
          rw [RustStack.CPU.setReg_registers_size, h24]) (by decide),
        RustStack.CPU.getReg_setReg_ne _ h24 (by decide), hs]
    have hmem2 : c2.memory = c.memory := rfl
    have hpush := RustStack.CPU.push_ok (v := RustStack.toBeBytes (ip + 2))
      hsp2 h2 (by rw [hmem2]; omega) (by rw [hmem2]; omega)
      (by simp [RustStack.toBeBytes])
    set M : RustStack.Memory := ⟨c2.memory.size,
      fun j => if s ≤ j ∧ j < s + 2
        then (RustStack.toBeBytes (ip + 2)).getD (j - s) 0
        else c2.memory.data j⟩ with hM
    set c3 : RustStack.CPU := RustStack.CPU.setReg { c2 with memory := M } .SP (s - 2) with hc3
    have hregs3 : ({ c2 with memory := M } : RustStack.CPU).registers = c2.registers := rfl
    have h24c : c3.registers.size = 24 := by
      rw [hc3, RustStack.CPU.setReg_registers_size, hregs3, h24b]
    set addr : Nat := 256 * c.memory.data ip + c.memory.data (ip + 1) with haddr
    have hexe : c.execute .CalLit = .ok (c3.setReg .IP addr) false := by
      show (c.fetchBuf 2).bind _ = _
      rw [hf1]
      show (c2.push (RustStack.toBeBytes (c2.getReg .IP))).bind
        (fun cx _ => RustStack.Res.ok
          (cx.setReg .IP (RustStack.to_u16 [c.memory.data ip, c.memory.data (ip + 1)])) false) = _
      rw [hip2, hpush]
      show RustStack.Res.ok
        (c3.setReg .IP (RustStack.to_u16 [c.memory.data ip, c.memory.data (ip + 1)])) false = _
      rw [RustStack.to_u16_pair]
    rw [hexe]
    refine ⟨rfl, ?_, ?_, ?_, ?_, ?_⟩
    · show (c3.setReg .IP addr).getReg .IP = addr
      rw [RustStack.CPU.getReg_setReg_self _ h24c]
      omega
    · show (c3.setReg .IP addr).getReg .SP = s - 2
      rw [RustStack.CPU.getReg_setReg_ne _ h24c (by decide), hc3,
        RustStack.CPU.getReg_setReg_self _ (by rw [hregs3, h24b])]
      omega
    · show M.data s = (ip + 2) / 256 % 256
      rw [hM]
      show (if s ≤ s ∧ s < s + 2 then (RustStack.toBeBytes (ip + 2)).getD (s - s) 0
        else c2.memory.data s) = _
      rw [if_pos ⟨by omega, by omega⟩, show s - s = 0 by omega]
      rfl
    · show M.data (s + 1) = (ip + 2) % 256
      rw [hM]
      show (if s ≤ s + 1 ∧ s + 1 < s + 2 then (RustStack.toBeBytes (ip + 2)).getD (s + 1 - s) 0
        else c2.memory.data (s + 1)) = _
      rw [if_pos ⟨by omega, by omega⟩, show s + 1 - s = 1 by omega]
      rfl
    · intro a ha
      show M.data a = c.memory.data a
      rw [hM]
      show (if s ≤ a ∧ a < s + 2 then _ else c2.memory.data a) = _
      rw [if_neg (by omega), hmem2]
  · intro c ip s r h24 hsz hip hs hin h2 hst hk hrip hrsp hr16
    have hf : c.fetchRegIdx = .ok (c.setReg .IP (ip + 1)) (r.toIndex * 2) := by
      have := RustStack.CPU.fetchRegIdx_ok hip (by omega) (by omega)
      rw [hk] at this
      exact this
    set c1 : RustStack.CPU := c.setReg .IP (ip + 1) with hc1
    have h24a : c1.registers.size = 24 := by
      rw [hc1, RustStack.CPU.setReg_registers_size, h24]
    have hip1 : c1.getReg .IP = ip + 1 := by
      rw [hc1, RustStack.CPU.getReg_setReg_self _ h24]
      omega
    have hsp1 : c1.getReg .SP = s := by
      rw [hc1, RustStack.CPU.getReg_setReg_ne _ h24 (by decide), hs]
    have hra : c1.regAt (r.toIndex * 2) = c.getReg r := by
      rw [RustStack.CPU.regAt_toIndex, hc1,
        RustStack.CPU.getReg_setReg_ne _ h24 (RustStack.Register.toIndex_ne hrip)]
    have hmem1 : c1.memory = c.memory := rfl
    have hpush := RustStack.CPU.push_ok (v := RustStack.toBeBytes (ip + 1))
      hsp1 h2 (by rw [hmem1]; omega) (by rw [hmem1]; omega)
      (by simp [RustStack.toBeBytes])
    set M : RustStack.Memory := ⟨c1.memory.size,
      fun j => if s ≤ j ∧ j < s + 2
        then (RustStack.toBeBytes (ip + 1)).getD (j - s) 0
        else c1.memory.data j⟩ with hM
    set c3 : RustStack.CPU := RustStack.CPU.setReg { c1 with memory := M } .SP (s - 2) with hc3
    have hregs3 : ({ c1 with memory := M } : RustStack.CPU).registers = c1.registers := rfl
    have h24c : c3.registers.size = 24 := by
      rw [hc3, RustStack.CPU.setReg_registers_size, hregs3, h24a]
    have hexe : c.execute .CalReg = .ok (c3.setReg .IP (c.getReg r)) false := by
      show (c.fetchRegIdx).bind _ = _
      rw [hf]
      show (c1.push (RustStack.toBeBytes (c1.getReg .IP))).bind
        (fun cx _ => RustStack.Res.ok (cx.setReg .IP (c1.regAt (r.toIndex * 2))) false) = _
      rw [hip1, hra, hpush]
      rfl
    rw [hexe]
    refine ⟨rfl, ?_, ?_, ?_, ?_, ?_⟩
    · show (c3.setReg .IP (c.getReg r)).getReg .IP = c.getReg r
      rw [RustStack.CPU.getReg_setReg_self _ h24c]
      omega
    · show (c3.setReg .IP (c.getReg r)).getReg .SP = s - 2
      rw [RustStack.CPU.getReg_setReg_ne _ h24c (by decide), hc3,
        RustStack.CPU.getReg_setReg_self _ (by rw [hregs3, h24a])]
      omega
    · show M.data s = (ip + 1) / 256 % 256
      rw [hM]
      show (if s ≤ s ∧ s < s + 2 then (RustStack.toBeBytes (ip + 1)).getD (s - s) 0
        else c1.memory.data s) = _
      rw [if_pos ⟨by omega, by omega⟩, show s - s = 0 by omega]
      rfl
    · show M.data (s + 1) = (ip + 1) % 256
      rw [hM]
      show (if s ≤ s + 1 ∧ s + 1 < s + 2 then (RustStack.toBeBytes (ip + 1)).getD (s + 1 - s) 0
        else c1.memory.data (s + 1)) = _
      rw [if_pos ⟨by omega, by omega⟩, show s + 1 - s = 1 by omega]
      rfl
    · intro a ha
      show M.data a = c.memory.data a
      rw [hM]
      show (if s ≤ a ∧ a < s + 2 then _ else c1.memory.data a) = _
      rw [if_neg (by omega), hmem1]
  · intro d s ra h24 hsz hsp h2 hst hslot0 hslot1 hra
    have hpop : d.pop = .ok (d.setReg .SP (s - 2 + 2))
        [d.memory.data (s - 2 + 2), d.memory.data (s - 2 + 3)] :=
      RustStack.CPU.pop_ok hsp (by omega) (by omega)
    have hs0 : s - 2 + 2 = s := by omega
    have hs1 : s - 2 + 3 = s + 1 := by omega
    rw [hs0, hs1] at hpop
    have h24a : (d.setReg .SP s).registers.size = 24 := by
      rw [RustStack.CPU.setReg_registers_size, h24]
    have hexe : d.execute .Ret = .ok ((d.setReg .SP s).setReg .IP
        (RustStack.to_u16 [d.memory.data s, d.memory.data (s + 1)])) false := by
      show (d.pop).bind _ = _
      rw [hpop]
      rfl
    have hval : RustStack.to_u16 [d.memory.data s, d.memory.data (s + 1)] = ra := by
      rw [RustStack.to_u16_pair, hslot0, hslot1]
      omega
    rw [hexe, hval]
    refine ⟨rfl, ?_, ?_⟩
    · show ((d.setReg .SP s).setReg .IP ra).getReg .IP = ra
      rw [RustStack.CPU.getReg_setReg_self _ h24a]
      omega
    · show ((d.setReg .SP s).setReg .IP ra).getReg .SP = s
      rw [RustStack.CPU.getReg_setReg_ne _ h24a (by decide),
        RustStack.CPU.getReg_setReg_self _ h24]
      omega

/-- C8 witness: a concrete `CalLit` to address 50 pushes return address
2 and jumps, and a concrete `Ret` with return slot holding 7 restores
`IP = 7` and `SP = 98`. -/
theorem C8_witness :
    ((RustStack.CPU.mk2 (RustStack.Memory.load [0, 50] 100)).execute
      .CalLit).state.getReg .IP = 50 ∧
    ((RustStack.CPU.mk2 (RustStack.Memory.load [0, 50] 100)).execute
      .CalLit).state.getReg .SP = 96 ∧
    ((((RustStack.CPU.mk2 (RustStack.Memory.load [0, 50] 100)).execute
      .CalLit).state.execute .Ret).state.getReg .IP = 2 ∧
     (((RustStack.CPU.mk2 (RustStack.Memory.load [0, 50] 100)).execute
      .CalLit).state.execute .Ret).state.getReg .SP = 98) := by
  have h1 := C8_cal_ret.1 (RustStack.CPU.mk2 (RustStack.Memory.load [0, 50] 100)) 0 98
    (by decide) (by decide) (by decide) (by decide) (by decide) (by decide) (by decide)
    (by decide) (by decide)
  refine ⟨h1.2.1.trans (by decide), h1.2.2.1, ?_⟩
  have h3 := C8_cal_ret.2.2
    ((RustStack.CPU.mk2 (RustStack.Memory.load [0, 50] 100)).execute .CalLit).state 98 2
    (by decide) (by decide) (by decide) (by decide) (by decide) (by decide) (by decide)
    (by decide)
  exact ⟨h3.2.1, h3.2.2⟩
namespace RustStack

/-- The forward-label program of spec scenario 6:
`Jmp end; Hlt; end:` (with `Nop` omitted for the smallest case). -/
def progForward : List ASTNode := [.Jmp (.Label "fin"), .Hlt, .Label "fin"]

end RustStack

/-- C2 evidence. On `Jmp fin; Hlt; fin:` the linear pass advances the
cursor by only 1 past the opcode (2 total, where reserving 2 bytes would
give 3), records the patch at offset 1, emits `Hlt` (0x1C) at byte 2 and
defines `fin = 3`; the patch pass then writes the 2-byte address 0x0003
at bytes 1..3, overwriting the emitted `Hlt` byte with 0x03. -/
theorem C2_patch_clobbers_next_byte :
    (RustStack.aresGetD (RustStack.processNodes RustStack.initState
      [RustStack.ASTNode.Jmp (.Label "fin")]) RustStack.initState).builder.counter = 2 ∧
    (RustStack.aresGetD (RustStack.processNodes RustStack.initState
      RustStack.progForward) RustStack.initState).builder.memory.data 2 = 0x1C ∧
    (RustStack.aresGetD (RustStack.processNodes RustStack.initState
      RustStack.progForward) RustStack.initState).needPatching = [("fin", 1)] ∧
    (RustStack.aresGetD (RustStack.processNodes RustStack.initState
      RustStack.progForward) RustStack.initState).labelAddrs = [("fin", 3)] ∧
    (RustStack.assemble RustStack.progForward).isOk = true ∧
    (RustStack.aresGetD (RustStack.assemble RustStack.progForward)
      RustStack.Memory.mkDefault).data 0 = 0x3E ∧
    (RustStack.aresGetD (RustStack.assemble RustStack.progForward)
      RustStack.Memory.mkDefault).data 1 = 0x00 ∧
    (RustStack.aresGetD (RustStack.assemble RustStack.progForward)
      RustStack.Memory.mkDefault).data 2 = 0x03 ∧
    (0x03 : Nat) ≠ 0x1C := by
  refine ⟨by decide, by decide, by decide, by decide, by decide, by decide, by decide,
    by decide, by decide⟩

namespace RustStack

/-! Effect lemmas for the byte emitter, used by the patching-pass
analysis. -/

theorem MemoryBuilder.push_eq {b b' : MemoryBuilder} {v : Nat}
    (h : b.push v = some b') :
    b'.counter = b.counter + 1 ∧ b'.memory.size = b.memory.size ∧
    b.counter < b.memory.size ∧
    (∀ j, j ≠ b.counter → b'.memory.data j = b.memory.data j) ∧
    b'.memory.data b.counter = v := by
  unfold MemoryBuilder.push Memory.set at h
  by_cases hc : b.counter < b.memory.size
  · rw [if_pos hc] at h
    simp only [Option.map_some'] at h
    injection h with h
    subst h
    refine ⟨rfl, rfl, hc, ?_, ?_⟩
    · intro j hj
      show (if j = b.counter then v else b.memory.data j) = _
      rw [if_neg hj]
    · show (if b.counter = b.counter then v else _) = v
      rw [if_pos rfl]
  · rw [if_neg hc] at h
    simp at h

theorem MemoryBuilder.push_isSome {b : MemoryBuilder} (v : Nat)
    (h : b.counter < b.memory.size) : ∃ b', b.push v = some b' := by
  unfold MemoryBuilder.push Memory.set
  rw [if_pos h]
  exact ⟨_, rfl⟩

theorem MemoryBuilder.pushU16_eq {b b' : MemoryBuilder} {v : Nat}
    (h : b.pushU16 v = some b') :
    b'.counter = b.counter + 2 ∧ b'.memory.size = b.memory.size ∧
    b.counter + 2 ≤ b.memory.size ∧
    (∀ j, j ≠ b.counter → j ≠ b.counter + 1 → b'.memory.data j = b.memory.data j) ∧
    b'.memory.data b.counter = v / 256 % 256 ∧
    b'.memory.data (b.counter + 1) = v % 256 := by
  unfold MemoryBuilder.pushU16 at h
  cases h1 : b.push (v / 256 % 256) with
  | none => rw [h1] at h; simp [Option.bind] at h
  | some b1 =>
    rw [h1] at h
    simp only [Option.some_bind] at h
    obtain ⟨hc1, hs1, hlt1, hpre1, hat1⟩ := MemoryBuilder.push_eq h1
    obtain ⟨hc2, hs2, hlt2, hpre2, hat2⟩ := MemoryBuilder.push_eq h
    refine ⟨by omega, by omega, by omega, ?_, ?_, ?_⟩
    · intro j hj0 hj1
      rw [hpre2 j (by omega), hpre1 j hj0]
    · rw [hpre2 b.counter (by omega), hat1]
    · rw [hc1] at hat2
      exact hat2

theorem MemoryBuilder.pushU16_isSome {b : MemoryBuilder} (v : Nat)
    (h : b.counter + 2 ≤ b.memory.size) : ∃ b', b.pushU16 v = some b' := by
  obtain ⟨b1, h1⟩ := MemoryBuilder.push_isSome (b := b) (v / 256 % 256) (by omega)
  obtain ⟨hc1, hs1, _, _, _⟩ := MemoryBuilder.push_eq h1
  obtain ⟨b2, h2⟩ := MemoryBuilder.push_isSome (b := b1) (v % 256) (by omega)
  refine ⟨b2, ?_⟩
  unfold MemoryBuilder.pushU16
  rw [h1]
  simpa using h2

end RustStack
namespace RustStack

/-- What one linear-pass step guarantees: the cursor never moves back,
the image size is fixed, and `need_patching` either is unchanged or gains
exactly one entry whose offset lies strictly past the node's first byte
and whose 2-byte slot ends no later than one byte past the new cursor. -/
def NodeSpec (st st' : AsmState) : Prop :=
  st.builder.counter ≤ st'.builder.counter ∧
  st'.builder.memory.size = st.builder.memory.size ∧
  (st'.needPatching = st.needPatching ∨
    ∃ l o, st'.needPatching = st.needPatching ++ [(l, o)] ∧
      st.builder.counter + 1 ≤ o ∧ o + 2 ≤ st'.builder.counter + 1)

theorem NodeSpec.of_builder {st : AsmState} {b : MemoryBuilder}
    (hc : st.builder.counter ≤ b.counter)
    (hs : b.memory.size = st.builder.memory.size) :
    NodeSpec st { st with builder := b } :=
  ⟨hc, hs, Or.inl rfl⟩

theorem emitErr_spec {st st' : AsmState} {x : Nat} {e : AssemblerError}
    (h : (withB (st.builder.push x) fun _ => (.err e : ARes AsmState)) = .ok st') :
    NodeSpec st st' := by
  cases hp : st.builder.push x <;> rw [hp] at h <;> simp [withB] at h

theorem emitP_spec {st st' : AsmState} {x : Nat}
    (h : (withB (st.builder.push x) fun b1 =>
      (.ok { st with builder := b1 } : ARes AsmState)) = .ok st') :
    NodeSpec st st' := by
  cases hp : st.builder.push x with
  | none => rw [hp] at h; simp [withB] at h
  | some b1 =>
    rw [hp] at h
    simp only [withB] at h
    injection h with h
    subst h
    obtain ⟨hc1, hs1, _, _, _⟩ := MemoryBuilder.push_eq hp
    exact NodeSpec.of_builder (by omega) (by omega)

theorem emitPP_spec {st st' : AsmState} {x y : Nat}
    (h : (withB (st.builder.push x) fun b1 =>
      withB (b1.push y) fun b2 =>
      (.ok { st with builder := b2 } : ARes AsmState)) = .ok st') :
    NodeSpec st st' := by
  cases hp : st.builder.push x with
  | none => rw [hp] at h; simp [withB] at h
  | some b1 =>
    rw [hp] at h
    simp only [withB] at h
    cases hq : b1.push y with
    | none => rw [hq] at h; simp [withB] at h
    | some b2 =>
      rw [hq] at h
      simp only [withB] at h
      injection h with h
      subst h
      obtain ⟨hc1, hs1, _, _, _⟩ := MemoryBuilder.push_eq hp
      obtain ⟨hc2, hs2, _, _, _⟩ := MemoryBuilder.push_eq hq
      exact NodeSpec.of_builder (by omega) (by omega)

theorem emitPPP_spec {st st' : AsmState} {x y z : Nat}
    (h : (withB (st.builder.push x) fun b1 =>
      withB (b1.push y) fun b2 =>
      withB (b2.push z) fun b3 =>
      (.ok { st with builder := b3 } : ARes AsmState)) = .ok st') :
    NodeSpec st st' := by
  cases hp : st.builder.push x with
  | none => rw [hp] at h; simp [withB] at h
  | some b1 =>
    rw [hp] at h
    simp only [withB] at h
    cases hq : b1.push y with
    | none => rw [hq] at h; simp [withB] at h
    | some b2 =>
      rw [hq] at h
      simp only [withB] at h
      cases hr : b2.push z with
      | none => rw [hr] at h; simp [withB] at h
      | some b3 =>
        rw [hr] at h
        simp only [withB] at h
        injection h with h
        subst h
        obtain ⟨hc1, hs1, _, _, _⟩ := MemoryBuilder.push_eq hp
        obtain ⟨hc2, hs2, _, _, _⟩ := MemoryBuilder.push_eq hq
        obtain ⟨hc3, hs3, _, _, _⟩ := MemoryBuilder.push_eq hr
        exact NodeSpec.of_builder (by omega) (by omega)

theorem emitPU_spec {st st' : AsmState} {x v : Nat}
    (h : (withB (st.builder.push x) fun b1 =>
      withB (b1.pushU16 v) fun b2 =>
      (.ok { st with builder := b2 } : ARes AsmState)) = .ok st') :
    NodeSpec st st' := by
  cases hp : st.builder.push x with
  | none => rw [hp] at h; simp [withB] at h
  | some b1 =>
    rw [hp] at h
    simp only [withB] at h
    cases hq : b1.pushU16 v with
    | none => rw [hq] at h; simp [withB] at h
    | some b2 =>
      rw [hq] at h
      simp only [withB] at h
      injection h with h
      subst h
      obtain ⟨hc1, hs1, _, _, _⟩ := MemoryBuilder.push_eq hp
      obtain ⟨hc2, hs2, _, _, _, _⟩ := MemoryBuilder.pushU16_eq hq
      exact NodeSpec.of_builder (by omega) (by omega)

theorem emitPUP_spec {st st' : AsmState} {x v z : Nat}
    (h : (withB (st.builder.push x) fun b1 =>
      withB (b1.pushU16 v) fun b2 =>
      withB (b2.push z) fun b3 =>
      (.ok { st with builder := b3 } : ARes AsmState)) = .ok st') :
    NodeSpec st st' := by
  cases hp : st.builder.push x with
  | none => rw [hp] at h; simp [withB] at h
  | some b1 =>
    rw [hp] at h
    simp only [withB] at h
    cases hq : b1.pushU16 v with
    | none => rw [hq] at h; simp [withB] at h
    | some b2 =>
      rw [hq] at h
      simp only [withB] at h
      cases hr : b2.push z with
      | none => rw [hr] at h; simp [withB] at h
      | some b3 =>
        rw [hr] at h
        simp only [withB] at h
        injection h with h
        subst h
        obtain ⟨hc1, hs1, _, _, _⟩ := MemoryBuilder.push_eq hp
        obtain ⟨hc2, hs2, _, _, _, _⟩ := MemoryBuilder.pushU16_eq hq
        obtain ⟨hc3, hs3, _, _, _⟩ := MemoryBuilder.push_eq hr
        exact NodeSpec.of_builder (by omega) (by omega)

theorem emitPPU_spec {st st' : AsmState} {x y v : Nat}
    (h : (withB (st.builder.push x) fun b1 =>
      withB (b1.push y) fun b2 =>
      withB (b2.pushU16 v) fun b3 =>
      (.ok { st with builder := b3 } : ARes AsmState)) = .ok st') :
    NodeSpec st st' := by
  cases hp : st.builder.push x with
  | none => rw [hp] at h; simp [withB] at h
  | some b1 =>
    rw [hp] at h
    simp only [withB] at h
    cases hq : b1.push y with
    | none => rw [hq] at h; simp [withB] at h
    | some b2 =>
      rw [hq] at h
      simp only [withB] at h
      cases hr : b2.pushU16 v with
      | none => rw [hr] at h; simp [withB] at h
      | some b3 =>
        rw [hr] at h
        simp only [withB] at h
        injection h with h
        subst h
        obtain ⟨hc1, hs1, _, _, _⟩ := MemoryBuilder.push_eq hp
        obtain ⟨hc2, hs2, _, _, _⟩ := MemoryBuilder.push_eq hq
        obtain ⟨hc3, hs3, _, _, _, _⟩ := MemoryBuilder.pushU16_eq hr
        exact NodeSpec.of_builder (by omega) (by omega)

theorem emitJmpEntry_spec {st st' : AsmState} {x : Nat} {l : String}
    (h : (withB (st.builder.push x) fun b1 =>
      (.ok { st with
          builder := b1.incr
          needPatching := st.needPatching ++ [(l, b1.getCounter)] } : ARes AsmState)) = .ok st') :
    NodeSpec st st' := by
  cases hp : st.builder.push x with
  | none => rw [hp] at h; simp [withB] at h
  | some b1 =>
    rw [hp] at h
    simp only [withB] at h
    injection h with h
    subst h
    obtain ⟨hc1, hs1, _, _, _⟩ := MemoryBuilder.push_eq hp
    refine ⟨?_, ?_, Or.inr ⟨l, b1.getCounter, rfl, ?_, ?_⟩⟩ <;>
      simp only [MemoryBuilder.incr, MemoryBuilder.getCounter] <;> omega

theorem emitPPEntry_spec {st st' : AsmState} {x y : Nat} {l : String}
    (h : (withB (st.builder.push x) fun b1 =>
      withB (b1.push y) fun b2 =>
      (.ok { st with
          builder := b2.incr
          needPatching := st.needPatching ++ [(l, b2.getCounter)] } : ARes AsmState)) = .ok st') :
    NodeSpec st st' := by
  cases hp : st.builder.push x with
  | none => rw [hp] at h; simp [withB] at h
  | some b1 =>
    rw [hp] at h
    simp only [withB] at h
    cases hq : b1.push y with
    | none => rw [hq] at h; simp [withB] at h
    | some b2 =>
      rw [hq] at h
      simp only [withB] at h
      injection h with h
      subst h
      obtain ⟨hc1, hs1, _, _, _⟩ := MemoryBuilder.push_eq hp
      obtain ⟨hc2, hs2, _, _, _⟩ := MemoryBuilder.push_eq hq
      refine ⟨?_, ?_, Or.inr ⟨l, b2.getCounter, rfl, ?_, ?_⟩⟩ <;>
        simp only [MemoryBuilder.incr, MemoryBuilder.getCounter] <;> omega

end RustStack
namespace RustStack

theorem emitPanic_spec {st st' : AsmState} {x : Nat}
    (h : (withB (st.builder.push x) fun _ => (.panic : ARes AsmState)) = .ok st') :
    NodeSpec st st' := by
  cases hp : st.builder.push x <;> rw [hp] at h <;> simp [withB] at h

theorem processJcc_spec {st st' : AsmState} {o1 o2 : OpCode} {label a : ASTArg}
    (h : processJcc st o1 o2 label a = .ok st') :
    NodeSpec st st' := by
  unfold processJcc at h
  cases label with
  | Label l =>
    cases a with
    | Lit lit =>
      cases hp : st.builder.push (opToByte o1) with
      | none => rw [hp] at h; simp [withB, ARes.bind] at h
      | some b1 =>
        rw [hp] at h
        simp only [withB] at h
        cases hq : (b1.setCounter (b1.getCounter + 1)).pushU16 lit with
        | none => rw [hq] at h; simp [withB, ARes.bind] at h
        | some b3 =>
          rw [hq] at h
          simp only [withB, ARes.bind] at h
          injection h with h
          subst h
          obtain ⟨hc1, hs1, _, _, _⟩ := MemoryBuilder.push_eq hp
          obtain ⟨hc2, hs2, _, _, _, _⟩ := MemoryBuilder.pushU16_eq hq
          have e1 : (b1.setCounter (b1.getCounter + 1)).counter = b1.counter + 1 := rfl
          have e2 : (b1.setCounter (b1.getCounter + 1)).memory = b1.memory := rfl
          rw [e1] at hc2
          rw [e2] at hs2
          refine ⟨?_, ?_, Or.inr ⟨l, b3.getCounter - 2, rfl, ?_, ?_⟩⟩ <;>
            simp only [MemoryBuilder.getCounter] <;> omega
    | Reg r =>
      cases hp : st.builder.push (opToByte o2) with
      | none => rw [hp] at h; simp [withB, ARes.bind] at h
      | some b1 =>
        rw [hp] at h
        simp only [withB] at h
        cases hq : (b1.setCounter (b1.getCounter + 1)).push r.toIndex with
        | none => rw [hq] at h; simp [withB, ARes.bind] at h
        | some b3 =>
          rw [hq] at h
          simp only [withB, ARes.bind] at h
          injection h with h
          subst h
          obtain ⟨hc1, hs1, _, _, _⟩ := MemoryBuilder.push_eq hp
          obtain ⟨hc2, hs2, _, _, _⟩ := MemoryBuilder.push_eq hq
          have e1 : (b1.setCounter (b1.getCounter + 1)).counter = b1.counter + 1 := rfl
          have e2 : (b1.setCounter (b1.getCounter + 1)).memory = b1.memory := rfl
          rw [e1] at hc2
          rw [e2] at hs2
          refine ⟨?_, ?_, Or.inr ⟨l, b3.getCounter - 2, rfl, ?_, ?_⟩⟩ <;>
            simp only [MemoryBuilder.getCounter] <;> omega
    | Label l2 => simp [ARes.bind] at h
    | Mem inner => simp [ARes.bind] at h
    | Offset b i => simp [ARes.bind] at h
  | Lit v => simp at h
  | Reg r => simp at h
  | Mem inner => simp at h
  | Offset b i => simp at h

theorem emitMovMemRegLabel_spec {st st' : AsmState} {z : Nat} {l : String}
    (h : ((withB (st.builder.push (opToByte .MovMemReg)) fun b1 =>
        (.ok ({ st with
            builder := b1.incr
            needPatching := st.needPatching ++ [(l, b1.getCounter)] }, ()) :
          ARes (AsmState × Unit))).bind fun st1 =>
      withB (st1.1.builder.push z) fun b =>
        .ok { st1.1 with builder := b }) = .ok st') :
    NodeSpec st st' := by
  cases hp : st.builder.push (opToByte .MovMemReg) with
  | none => rw [hp] at h; simp [withB, ARes.bind] at h
  | some b1 =>
    rw [hp] at h
    simp only [withB, ARes.bind] at h
    cases hq : b1.incr.push z with
    | none =>
      rw [hq] at h
      simp [withB] at h
    | some b2 =>
      rw [hq] at h
      simp only [withB] at h
      injection h with h
      subst h
      obtain ⟨hc1, hs1, _, _, _⟩ := MemoryBuilder.push_eq hp
      obtain ⟨hc2, hs2, _, _, _⟩ := MemoryBuilder.push_eq hq
      have e1 : b1.incr.counter = b1.counter + 1 := rfl
      have e2 : b1.incr.memory = b1.memory := rfl
      rw [e1] at hc2
      rw [e2] at hs2
      refine ⟨?_, ?_, Or.inr ⟨l, b1.getCounter, rfl, ?_, ?_⟩⟩ <;>
        simp only [MemoryBuilder.getCounter] <;> omega

theorem emitMovMemRegLit_spec {st st' : AsmState} {v z : Nat}
    (h : ((withB (st.builder.push (opToByte .MovMemReg)) fun b1 =>
        withB (b1.pushU16 v) fun b2 =>
        (.ok ({ st with builder := b2 }, ()) : ARes (AsmState × Unit))).bind fun st1 =>
      withB (st1.1.builder.push z) fun b =>
        .ok { st1.1 with builder := b }) = .ok st') :
    NodeSpec st st' := by
  cases hp : st.builder.push (opToByte .MovMemReg) with
  | none => rw [hp] at h; simp [withB, ARes.bind] at h
  | some b1 =>
    rw [hp] at h
    simp only [withB] at h
    cases hq : b1.pushU16 v with
    | none => rw [hq] at h; simp [withB, ARes.bind] at h
    | some b2 =>
      rw [hq] at h
      simp only [withB, ARes.bind] at h
      cases hr : b2.push z with
      | none =>
        rw [hr] at h
        simp [withB] at h
      | some b3 =>
        rw [hr] at h
        simp only [withB] at h
        injection h with h
        subst h
        obtain ⟨hc1, hs1, _, _, _⟩ := MemoryBuilder.push_eq hp
        obtain ⟨hc2, hs2, _, _, _, _⟩ := MemoryBuilder.pushU16_eq hq
        obtain ⟨hc3, hs3, _, _, _⟩ := MemoryBuilder.push_eq hr
        refine ⟨?_, ?_, Or.inl rfl⟩
        · show st.builder.counter ≤ b3.counter
          omega
        · show b3.memory.size = st.builder.memory.size
          omega

theorem emitMovMemRegPtr_spec {st st' : AsmState} {y z : Nat}
    (h : ((withB (st.builder.push (opToByte .MovRegPtrReg)) fun b1 =>
        withB (b1.push y) fun b2 =>
        (.ok ({ st with builder := b2 }, ()) : ARes (AsmState × Unit))).bind fun st1 =>
      withB (st1.1.builder.push z) fun b =>
        .ok { st1.1 with builder := b }) = .ok st') :
    NodeSpec st st' := by
  cases hp : st.builder.push (opToByte .MovRegPtrReg) with
  | none => rw [hp] at h; simp [withB, ARes.bind] at h
  | some b1 =>
    rw [hp] at h
    simp only [withB] at h
    cases hq : b1.push y with
    | none => rw [hq] at h; simp [withB, ARes.bind] at h
    | some b2 =>
      rw [hq] at h
      simp only [withB, ARes.bind] at h
      cases hr : b2.push z with
      | none =>
        rw [hr] at h
        simp [withB] at h
      | some b3 =>
        rw [hr] at h
        simp only [withB] at h
        injection h with h
        subst h
        obtain ⟨hc1, hs1, _, _, _⟩ := MemoryBuilder.push_eq hp
        obtain ⟨hc2, hs2, _, _, _⟩ := MemoryBuilder.push_eq hq
        obtain ⟨hc3, hs3, _, _, _⟩ := MemoryBuilder.push_eq hr
        refine ⟨?_, ?_, Or.inl rfl⟩
        · show st.builder.counter ≤ b3.counter
          omega
        · show b3.memory.size = st.builder.memory.size
          omega

end RustStack
namespace RustStack

theorem emitPPErr_spec {st st' : AsmState} {x y : Nat} {e : AssemblerError}
    (h : (withB (st.builder.push x) fun b1 =>
      withB (b1.push y) fun _ => (.err e : ARes AsmState)) = .ok st') :
    NodeSpec st st' := by
  cases hp : st.builder.push x with
  | none => rw [hp] at h; simp [withB] at h
  | some b1 =>
    rw [hp] at h
    simp only [withB] at h
    cases hq : b1.push y <;> rw [hq] at h <;> simp [withB] at h

/-- The per-node guarantee of the linear pass. -/
theorem processNode_spec {st st' : AsmState} {node : ASTNode}
    (h : processNode st node = .ok st') :
    NodeSpec st st' := by
  cases node with
  | Label name =>
    simp only [processNode] at h
    injection h with h
    subst h
    exact ⟨le_refl _, rfl, Or.inl rfl⟩
  | Mov a1 a2 =>
    cases a1 with
    | Lit lit =>
      cases a2 with
      | Reg r => simp only [processNode] at h; exact emitPUP_spec h
      | Label x => simp [processNode] at h
      | Lit x => simp [processNode] at h
      | Mem x => simp [processNode] at h
      | Offset x y => simp [processNode] at h
    | Reg r1 =>
      cases a2 with
      | Reg r2 => simp only [processNode] at h; exact emitPPP_spec h
      | Mem mem =>
        cases mem with
        | Label l => simp only [processNode] at h; exact emitPPEntry_spec h
        | Lit lit => simp only [processNode] at h; exact emitPPU_spec h
        | Reg rp => simp only [processNode] at h; exact emitPPP_spec h
        | Mem x => simp only [processNode] at h; exact emitPPErr_spec h
        | Offset x y => simp only [processNode] at h; exact emitPPErr_spec h
      | Label x => simp [processNode] at h
      | Lit x => simp [processNode] at h
      | Offset x y => simp [processNode] at h
    | Mem mem =>
      cases a2 with
      | Reg r2 =>
        cases mem with
        | Label l => simp only [processNode] at h; exact emitMovMemRegLabel_spec h
        | Lit lit => simp only [processNode] at h; exact emitMovMemRegLit_spec h
        | Reg rp => simp only [processNode] at h; exact emitMovMemRegPtr_spec h
        | Mem x => simp [processNode, ARes.bind] at h
        | Offset x y => simp [processNode, ARes.bind] at h
      | Label x => simp [processNode] at h
      | Lit x => simp [processNode] at h
      | Mem x => simp [processNode] at h
      | Offset x y => simp [processNode] at h
    | Label x => cases a2 <;> simp [processNode] at h
    | Offset x y => cases a2 <;> simp [processNode] at h
  | Add a reg =>
    cases reg with
    | Reg r =>
      cases a with
      | Reg r2 => simp only [processNode] at h; exact emitPPP_spec h
      | Lit lit => simp only [processNode] at h; exact emitPUP_spec h
      | Label x => simp [processNode] at h
      | Mem x => simp [processNode] at h
      | Offset x y => simp [processNode] at h
    | Label x => simp [processNode] at h
    | Lit x => simp [processNode] at h
    | Mem x => simp [processNode] at h
    | Offset x y => simp [processNode] at h
  | Sub a1 a2 =>
    cases a1 with
    | Reg r1 =>
      cases a2 with
      | Reg r2 => simp only [processNode] at h; exact emitPPP_spec h
      | Lit lit => simp only [processNode] at h; exact emitPPU_spec h
      | Label x => simp [processNode] at h
      | Mem x => simp [processNode] at h
      | Offset x y => simp [processNode] at h
    | Lit lit =>
      cases a2 with
      | Reg r2 => simp only [processNode] at h; exact emitPUP_spec h
      | Label x => simp [processNode] at h
      | Lit x => simp [processNode] at h
      | Mem x => simp [processNode] at h
      | Offset x y => simp [processNode] at h
    | Label x => cases a2 <;> simp [processNode] at h
    | Mem x => cases a2 <;> simp [processNode] at h
    | Offset x y => cases a2 <;> simp [processNode] at h
  | Mul a reg =>
    cases reg with
    | Reg r =>
      cases a with
      | Reg r2 => simp only [processNode] at h; exact emitPPP_spec h
      | Lit lit => simp only [processNode] at h; exact emitPUP_spec h
      | Label x => simp [processNode] at h
      | Mem x => simp [processNode] at h
      | Offset x y => simp [processNode] at h
    | Label x => simp [processNode] at h
    | Lit x => simp [processNode] at h
    | Mem x => simp [processNode] at h
    | Offset x y => simp [processNode] at h
  | Shl reg a =>
    cases reg with
    | Reg r =>
      cases a with
      | Reg r2 => simp only [processNode] at h; exact emitPPP_spec h
      | Lit lit => simp only [processNode] at h; exact emitPPU_spec h
      | Label x => simp [processNode] at h
      | Mem x => simp [processNode] at h
      | Offset x y => simp [processNode] at h
    | Label x => simp [processNode] at h
    | Lit x => simp [processNode] at h
    | Mem x => simp [processNode] at h
    | Offset x y => simp [processNode] at h
  | Shr reg a =>
    cases reg with
    | Reg r =>
      cases a with
      | Reg r2 => simp only [processNode] at h; exact emitPPP_spec h
      | Lit lit => simp only [processNode] at h; exact emitPPU_spec h
      | Label x => simp [processNode] at h
      | Mem x => simp [processNode] at h
      | Offset x y => simp [processNode] at h
    | Label x => simp [processNode] at h
    | Lit x => simp [processNode] at h
    | Mem x => simp [processNode] at h
    | Offset x y => simp [processNode] at h
  | And reg a =>
    cases reg with
    | Reg r =>
      cases a with
      | Reg r2 => simp only [processNode] at h; exact emitPPP_spec h
      | Lit lit => simp only [processNode] at h; exact emitPPU_spec h
      | Label x => simp [processNode] at h
      | Mem x => simp [processNode] at h
      | Offset x y => simp [processNode] at h
    | Label x => simp [processNode] at h
    | Lit x => simp [processNode] at h
    | Mem x => simp [processNode] at h
    | Offset x y => simp [processNode] at h
  | Or reg a =>
    cases reg with
    | Reg r =>
      cases a with
      | Reg r2 => simp only [processNode] at h; exact emitPPP_spec h
      | Lit lit => simp only [processNode] at h; exact emitPPU_spec h
      | Label x => simp [processNode] at h
      | Mem x => simp [processNode] at h
      | Offset x y => simp [processNode] at h
    | Label x => simp [processNode] at h
    | Lit x => simp [processNode] at h
    | Mem x => simp [processNode] at h
    | Offset x y => simp [processNode] at h
  | Xor reg a =>
    cases reg with
    | Reg r =>
      cases a with
      | Lit lit => simp only [processNode] at h; exact emitPPU_spec h
      | Reg r2 => simp only [processNode] at h; exact emitPPP_spec h
      | Label x => simp [processNode] at h
      | Mem x => simp [processNode] at h
      | Offset x y => simp [processNode] at h
    | Label x => simp [processNode] at h
    | Lit x => simp [processNode] at h
    | Mem x => simp [processNode] at h
    | Offset x y => simp [processNode] at h
  | Not reg =>
    cases reg with
    | Reg r => simp only [processNode] at h; exact emitPP_spec h
    | Label x => simp [processNode] at h
    | Lit x => simp [processNode] at h
    | Mem x => simp [processNode] at h
    | Offset x y => simp [processNode] at h
  | Jne a b => simp only [processNode] at h; exact processJcc_spec h
  | Jeq a b => simp only [processNode] at h; exact processJcc_spec h
  | Jlt a b => simp only [processNode] at h; exact processJcc_spec h
  | Jgt a b => simp only [processNode] at h; exact processJcc_spec h
  | Jle a b => simp only [processNode] at h; exact processJcc_spec h
  | Jge a b => simp only [processNode] at h; exact processJcc_spec h
  | Jmp label =>
    cases label with
    | Label l => simp only [processNode] at h; exact emitJmpEntry_spec h
    | Lit x => simp [processNode] at h
    | Reg x => simp [processNode] at h
    | Mem x => simp [processNode] at h
    | Offset x y => simp [processNode] at h
  | Psh a =>
    cases a with
    | Lit lit => simp only [processNode] at h; exact emitPU_spec h
    | Reg r => simp only [processNode] at h; exact emitPP_spec h
    | Label x => simp [processNode] at h
    | Mem x => simp [processNode] at h
    | Offset x y => simp [processNode] at h
  | Pop reg =>
    cases reg with
    | Reg r => simp only [processNode] at h; exact emitPP_spec h
    | Label x => simp only [processNode] at h; exact emitErr_spec h
    | Lit x => simp only [processNode] at h; exact emitErr_spec h
    | Mem x => simp only [processNode] at h; exact emitErr_spec h
    | Offset x y => simp only [processNode] at h; exact emitErr_spec h
  | Cal a =>
    cases a with
    | Lit lit => simp only [processNode] at h; exact emitPU_spec h
    | Reg r => simp only [processNode] at h; exact emitPP_spec h
    | Label l => simp only [processNode] at h; exact emitJmpEntry_spec h
    | Mem x => simp [processNode] at h
    | Offset x y => simp [processNode] at h
  | Inc reg =>
    cases reg with
    | Reg r => simp only [processNode] at h; exact emitPP_spec h
    | Label x => simp only [processNode] at h; exact emitErr_spec h
    | Lit x => simp only [processNode] at h; exact emitErr_spec h
    | Mem x => simp only [processNode] at h; exact emitErr_spec h
    | Offset x y => simp only [processNode] at h; exact emitErr_spec h
  | Dec reg =>
    cases reg with
    | Reg r => simp only [processNode] at h; exact emitPP_spec h
    | Label x => simp only [processNode] at h; exact emitErr_spec h
    | Lit x => simp only [processNode] at h; exact emitErr_spec h
    | Mem x => simp only [processNode] at h; exact emitErr_spec h
    | Offset x y => simp only [processNode] at h; exact emitErr_spec h
  | Sys val =>
    cases val with
    | Lit lit => simp only [processNode] at h; exact emitPP_spec h
    | Label l => simp only [processNode] at h; exact emitPanic_spec h
    | Reg x => simp only [processNode] at h; exact emitErr_spec h
    | Mem x => simp only [processNode] at h; exact emitErr_spec h
    | Offset x y => simp only [processNode] at h; exact emitErr_spec h
  | Ret => simp only [processNode] at h; exact emitP_spec h
  | Hlt => simp only [processNode] at h; exact emitP_spec h
  | Nop => simp only [processNode] at h; exact emitP_spec h

end RustStack
namespace RustStack

/-- Invariant of the linear pass: every recorded slot ends no later than
one byte past the cursor, and slots are recorded left to right with
disjoint 2-byte extents. -/
def PatchInv (st : AsmState) : Prop :=
  (∀ e ∈ st.needPatching, e.2 + 2 ≤ st.builder.counter + 1) ∧
  st.needPatching.Pairwise (fun p q => p.2 + 2 ≤ q.2)

theorem PatchInv.step {st st' : AsmState} (hinv : PatchInv st) (hs : NodeSpec st st') :
    PatchInv st' := by
  obtain ⟨hin, hpw⟩ := hinv
  obtain ⟨hc, _, hp⟩ := hs
  rcases hp with he | ⟨l, o, he, h1, h2⟩
  · refine ⟨fun e hm => ?_, ?_⟩
    · rw [he] at hm
      exact le_trans (hin e hm) (by omega)
    · show st'.needPatching.Pairwise _
      rw [he]
      exact hpw
  · refine ⟨fun e hm => ?_, ?_⟩
    · rw [he] at hm
      rcases List.mem_append.mp hm with hm | hm
      · exact le_trans (hin e hm) (by omega)
      · have : e = (l, o) := by simpa using hm
        rw [this]
        exact h2
    · show st'.needPatching.Pairwise _
      rw [he]
      refine List.pairwise_append.mpr ⟨hpw, List.pairwise_singleton _ _, ?_⟩
      intro p hp q hq
      have hq2 : q = (l, o) := by simpa using hq
      have := hin p hp
      rw [hq2]
      omega

theorem processNodes_inv {nodes : List ASTNode} :
    ∀ {st st' : AsmState}, processNodes st nodes = .ok st' → PatchInv st →
      PatchInv st' ∧ st.builder.counter ≤ st'.builder.counter ∧
      st'.builder.memory.size = st.builder.memory.size := by
  induction nodes with
  | nil =>
    intro st st' h hinv
    simp only [processNodes] at h
    injection h with h
    subst h
    exact ⟨hinv, le_refl _, rfl⟩
  | cons n rest ih =>
    intro st st' h hinv
    simp only [processNodes] at h
    cases hstep : processNode st n with
    | err e => rw [hstep] at h; simp [ARes.bind] at h
    | panic => rw [hstep] at h; simp [ARes.bind] at h
    | ok st1 =>
      rw [hstep] at h
      simp only [ARes.bind] at h
      obtain ⟨hspec1, hspec2, hspec3⟩ := processNode_spec hstep
      obtain ⟨hinv', hc', hs'⟩ := ih h (PatchInv.step hinv (processNode_spec hstep))
      exact ⟨hinv', by omega, by omega⟩

/-- Success of the patching pass: when every entry's label is known and
every entry's 2-byte slot lies inside the image, the pass succeeds;
bytes outside all slots are untouched; and when the slots are pairwise
disjoint, each slot ends up holding the big-endian address of its
label. -/
theorem patchPass_ok (labels : List (String × Nat)) :
    ∀ (entries : List (String × Nat)) (b : MemoryBuilder),
      (∀ e ∈ entries, (lookupA labels e.1).isSome) →
      (∀ e ∈ entries, e.2 + 2 ≤ b.memory.size) →
      ∃ b', patchPass labels entries b = .ok b' ∧
        b'.memory.size = b.memory.size ∧
        (∀ j, (∀ e ∈ entries, j < e.2 ∨ e.2 + 2 ≤ j) → b'.memory.data j = b.memory.data j) ∧
        (entries.Pairwise (fun p q => p.2 + 2 ≤ q.2) →
          ∀ e ∈ entries, ∀ a, lookupA labels e.1 = some a →
            b'.memory.data e.2 = a / 256 % 256 ∧ b'.memory.data (e.2 + 1) = a % 256) := by
  intro entries
  induction entries with
  | nil =>
    intro b _ _
    exact ⟨b, rfl, rfl, fun j _ => rfl, fun _ e hm => absurd hm (List.not_mem_nil e)⟩
  | cons e0 rest ih =>
    intro b hdef hin
    obtain ⟨l0, o0⟩ := e0
    have hl0 : (lookupA labels l0).isSome := hdef (l0, o0) (by simp)
    obtain ⟨a0, ha0⟩ := Option.isSome_iff_exists.mp hl0
    have ho0 : o0 + 2 ≤ b.memory.size := hin (l0, o0) (by simp)
    have hsc : ((b.setCounter o0).counter + 2 ≤ (b.setCounter o0).memory.size) := by
      show o0 + 2 ≤ b.memory.size
      exact ho0
    obtain ⟨b1, hb1⟩ := MemoryBuilder.pushU16_isSome (b := b.setCounter o0) a0 hsc
    obtain ⟨hc1, hs1, _, hpre1, hat0, hat1⟩ := MemoryBuilder.pushU16_eq hb1
    have hs1' : b1.memory.size = b.memory.size := hs1
    obtain ⟨b', hrec, hsz', huntouched, hslots⟩ := ih b1
      (fun e hm => hdef e (by simp [hm]))
      (fun e hm => by rw [hs1']; exact hin e (by simp [hm]))
    refine ⟨b', ?_, by omega, ?_, ?_⟩
    · show patchPass labels ((l0, o0) :: rest) b = .ok b'
      unfold patchPass
      rw [ha0]
      show (match (b.setCounter o0).pushU16 a0 with
        | none => (ARes.panic : ARes MemoryBuilder)
        | some b1 => patchPass labels rest b1) = ARes.ok b'
      rw [hb1]
      exact hrec
    · intro j hj
      rw [huntouched j (fun e hm => hj e (by simp [hm]))]
      have hj0 := hj (l0, o0) (by simp)
      exact hpre1 j (by show j ≠ (b.setCounter o0).counter; show j ≠ o0; omega)
        (by show j ≠ (b.setCounter o0).counter + 1; show j ≠ o0 + 1; omega)
    · intro hpw e hm a ha
      have hpw' := List.pairwise_cons.mp hpw
      rcases List.mem_cons.mp hm with hm0 | hmr
      · subst hm0
        have ha' : lookupA labels l0 = some a := ha
        have haa : a = a0 := by
          rw [ha0] at ha'
          injection ha' with hv
          exact hv.symm
        subst haa
        have huo0 : b'.memory.data o0 = b1.memory.data o0 := by
          refine huntouched o0 (fun e' hm' => ?_)
          have := hpw'.1 e' hm'
          omega
        have huo1 : b'.memory.data (o0 + 1) = b1.memory.data (o0 + 1) := by
          refine huntouched (o0 + 1) (fun e' hm' => ?_)
          have := hpw'.1 e' hm'
          omega
        refine ⟨?_, ?_⟩
        · show b'.memory.data o0 = a / 256 % 256
          rw [huo0]
          exact hat0
        · show b'.memory.data (o0 + 1) = a % 256
          rw [huo1]
          exact hat1
      · exact hslots hpw'.2 e hmr a ha

/-- Failure of the patching pass: with all slots in bounds, if some
entry's label is unknown, the pass stops at the first such entry with
`InvalidLabel` of that entry's label. -/
theorem patchPass_err (labels : List (String × Nat)) :
    ∀ (entries : List (String × Nat)) (b : MemoryBuilder),
      (∀ e ∈ entries, e.2 + 2 ≤ b.memory.size) →
      ∀ l o, entries.find? (fun e => (lookupA labels e.1).isNone) = some (l, o) →
      patchPass labels entries b = .err (.InvalidLabel l) := by
  intro entries
  induction entries with
  | nil => intro b _ l o hf; simp at hf
  | cons e0 rest ih =>
    intro b hin l o hf
    obtain ⟨l0, o0⟩ := e0
    by_cases h0 : (lookupA labels l0).isNone
    · rw [List.find?_cons_of_pos _ (by simpa using h0)] at hf
      injection hf with hf
      injection hf with h1 h2
      subst h1
      unfold patchPass
      rw [Option.isNone_iff_eq_none.mp h0]
    · rw [List.find?_cons_of_neg _ (by simpa using h0)] at hf
      have hsome : (lookupA labels l0).isSome := by
        cases hll : lookupA labels l0 with
        | none => rw [hll] at h0; simp at h0
        | some v => rfl
      obtain ⟨a0, ha0⟩ := Option.isSome_iff_exists.mp hsome
      have ho0 : o0 + 2 ≤ b.memory.size := hin (l0, o0) (by simp)
      obtain ⟨b1, hb1⟩ := MemoryBuilder.pushU16_isSome (b := b.setCounter o0) a0
        (by show o0 + 2 ≤ b.memory.size; exact ho0)
      obtain ⟨_, hs1, _, _, _, _⟩ := MemoryBuilder.pushU16_eq hb1
      unfold patchPass
      rw [ha0]
      show (match (b.setCounter o0).pushU16 a0 with
        | none => (ARes.panic : ARes MemoryBuilder)
        | some b1 => patchPass labels rest b1) = ARes.err (.InvalidLabel l)
      rw [hb1]
      exact ih b1 (fun e hm => by
        rw [show b1.memory.size = b.memory.size from hs1]
        exact hin e (by simp [hm])) l o hf

end RustStack
namespace RustStack

theorem MemoryBuilder.push_none {b : MemoryBuilder} (v : Nat)
    (h : b.memory.size ≤ b.counter) : b.push v = none := by
  unfold MemoryBuilder.push Memory.set
  rw [if_neg (by omega)]
  rfl

theorem processNodes_append (l1 l2 : List ASTNode) :
    ∀ st, processNodes st (l1 ++ l2) =
      (processNodes st l1).bind fun st1 => processNodes st1 l2 := by
  induction l1 with
  | nil => intro st; rfl
  | cons n rest ih =>
    intro st
    show (processNode st n).bind _ = ((processNode st n).bind _).bind _
    cases processNode st n with
    | ok st1 => simp only [ARes.bind]; exact ih st1
    | err e => rfl
    | panic => rfl

theorem PatchInv.init : PatchInv initState :=
  ⟨fun e hm => absurd hm (List.not_mem_nil e), List.Pairwise.nil⟩

end RustStack

/-- C6 as amended: assume the linear pass succeeds with final state `st`
and the program stops at least one byte short of the end of the image
(`st.builder.counter + 1 ≤ image size`) — without that proviso the patch
write for a slot recorded at the very end of the image goes out of
bounds and the assembler panics instead. Then: if every recorded
reference names a defined label, `assemble` returns `Ok` and every
recorded 2-byte slot holds the big-endian address of its label; and if
some reference names an undefined label, `assemble` returns
`Err(InvalidLabel(name))` for the first such reference. -/
theorem C6_label_patching (nodes : List RustStack.ASTNode)
    (hlin : (RustStack.processNodes RustStack.initState nodes).isOk = true)
    (hroom : (RustStack.aresGetD (RustStack.processNodes RustStack.initState nodes)
        RustStack.initState).builder.counter + 1 ≤
      (RustStack.aresGetD (RustStack.processNodes RustStack.initState nodes)
        RustStack.initState).builder.memory.size) :
    ((∀ e ∈ (RustStack.aresGetD (RustStack.processNodes RustStack.initState nodes)
        RustStack.initState).needPatching,
        (RustStack.lookupA (RustStack.aresGetD (RustStack.processNodes RustStack.initState nodes)
          RustStack.initState).labelAddrs e.1).isSome) →
      ∃ m, RustStack.assemble nodes = .ok m ∧
        ∀ e ∈ (RustStack.aresGetD (RustStack.processNodes RustStack.initState nodes)
          RustStack.initState).needPatching,
          ∀ a, RustStack.lookupA (RustStack.aresGetD
              (RustStack.processNodes RustStack.initState nodes)
              RustStack.initState).labelAddrs e.1 = some a →
            m.data e.2 = a / 256 % 256 ∧ m.data (e.2 + 1) = a % 256) ∧
    (∀ l o, ((RustStack.aresGetD (RustStack.processNodes RustStack.initState nodes)
        RustStack.initState).needPatching.find?
        (fun e => (RustStack.lookupA (RustStack.aresGetD
          (RustStack.processNodes RustStack.initState nodes)
          RustStack.initState).labelAddrs e.1).isNone)) = some (l, o) →
      RustStack.assemble nodes = .err (.InvalidLabel l)) := by
  cases hres : RustStack.processNodes RustStack.initState nodes with
  | err e => rw [hres] at hlin; simp [RustStack.ARes.isOk] at hlin
  | panic => rw [hres] at hlin; simp [RustStack.ARes.isOk] at hlin
  | ok st =>
    rw [hres] at hroom
    simp only [RustStack.aresGetD] at hroom
    simp only [RustStack.aresGetD]
    obtain ⟨⟨hin, hpw⟩, _, _⟩ := RustStack.processNodes_inv hres RustStack.PatchInv.init
    have hbounds : ∀ e ∈ st.needPatching, e.2 + 2 ≤ st.builder.memory.size :=
      fun e hm => le_trans (hin e hm) hroom
    constructor
    · intro hdef
      obtain ⟨b', hpp, _, _, hslots⟩ :=
        RustStack.patchPass_ok st.labelAddrs st.needPatching st.builder hdef hbounds
      refine ⟨b'.build, ?_, ?_⟩
      · unfold RustStack.assemble
        rw [hres]
        simp only [RustStack.ARes.bind]
        rw [hpp]
      · intro e hm a ha
        exact hslots hpw e hm a ha
    · intro l o hf
      unfold RustStack.assemble
      rw [hres]
      simp only [RustStack.ARes.bind]
      rw [RustStack.patchPass_err st.labelAddrs st.needPatching st.builder hbounds l o hf]

/-- C6 witness: `Jmp e; e:` assembles to `Ok`. -/
theorem C6_witness :
    (RustStack.assemble [RustStack.ASTNode.Jmp (.Label "e"),
      RustStack.ASTNode.Label "e"]).isOk = true := by
  obtain ⟨m, hm, _⟩ := (C6_label_patching
    [RustStack.ASTNode.Jmp (.Label "e"), RustStack.ASTNode.Label "e"]
    (by decide) (by decide)).1 (by decide)
  rw [hm]
  rfl
namespace RustStack

/-- Emitting `n` copies of `Psh 0` advances the cursor by `3n` and
touches neither the label map nor the patch list. -/
theorem processNodes_replicate_psh :
    ∀ (n : Nat) (st : AsmState),
      st.builder.counter + 3 * n ≤ st.builder.memory.size →
      ∃ st', processNodes st (List.replicate n (ASTNode.Psh (.Lit 0))) = .ok st' ∧
        st'.builder.counter = st.builder.counter + 3 * n ∧
        st'.builder.memory.size = st.builder.memory.size ∧
        st'.labelAddrs = st.labelAddrs ∧
        st'.needPatching = st.needPatching := by
  intro n
  induction n with
  | zero =>
    intro st h
    exact ⟨st, rfl, by omega, rfl, rfl, rfl⟩
  | succ k ih =>
    intro st h
    obtain ⟨b1, hb1⟩ := MemoryBuilder.push_isSome (b := st.builder) (opToByte .PshLit)
      (by omega)
    obtain ⟨hc1, hs1, _, _, _⟩ := MemoryBuilder.push_eq hb1
    obtain ⟨b2, hb2⟩ := MemoryBuilder.pushU16_isSome (b := b1) 0 (by omega)
    obtain ⟨hc2, hs2, _, _, _, _⟩ := MemoryBuilder.pushU16_eq hb2
    obtain ⟨st', hrec, hc', hs', hl', hp'⟩ := ih { st with builder := b2 } (by
      show b2.counter + 3 * k ≤ b2.memory.size
      omega)
    refine ⟨st', ?_, ?_, ?_, hl', hp'⟩
    · rw [List.replicate_succ]
      show (processNode st (ASTNode.Psh (.Lit 0))).bind _ = .ok st'
      have hpn : processNode st (ASTNode.Psh (.Lit 0)) = .ok { st with builder := b2 } := by
        show (withB (st.builder.push (opToByte .PshLit)) fun bb =>
          withB (bb.pushU16 0) fun bb2 =>
            (ARes.ok { st with builder := bb2 } : ARes AsmState)) =
            .ok { st with builder := b2 }
        rw [hb1]
        simp only [withB]
        rw [hb2]
      rw [hpn]
      simp only [ARes.bind]
      exact hrec
    · show st'.builder.counter = st.builder.counter + 3 * (k + 1)
      have : ({ st with builder := b2 } : AsmState).builder.counter = b2.counter := rfl
      omega
    · have : ({ st with builder := b2 } : AsmState).builder.memory.size = b2.memory.size := rfl
      omega

/-- A program that emits 65533 instruction bytes, then a `Jmp` to a
label defined at the very end of the image: the reserved slot is the
last byte of the 65535-byte image and the byte past it. -/
def monsterProg : List ASTNode :=
  List.replicate 21844 (ASTNode.Psh (.Lit 0)) ++
    [ASTNode.Nop, ASTNode.Jmp (.Label "fin"), ASTNode.Label "fin"]

end RustStack

/-- C6 counterexample. On `monsterProg` the linear pass succeeds (final
cursor 65535) and its single forward reference names a label that is
defined, so the claim asserts `assemble` returns `Ok` with the slot
patched; instead the patch pass writes the 2-byte address at offsets
65534 and 65535, the second write falls outside the 65535-byte image,
and `assemble` panics. -/
theorem C6_counterexample :
    (RustStack.processNodes RustStack.initState RustStack.monsterProg).isOk = true ∧
    (∀ e ∈ (RustStack.aresGetD
        (RustStack.processNodes RustStack.initState RustStack.monsterProg)
        RustStack.initState).needPatching,
      (RustStack.lookupA (RustStack.aresGetD
        (RustStack.processNodes RustStack.initState RustStack.monsterProg)
        RustStack.initState).labelAddrs e.1).isSome) ∧
    (RustStack.assemble RustStack.monsterProg).isPanic = true ∧
    (RustStack.assemble RustStack.monsterProg).isOk = false := by
  obtain ⟨st1, hrep, hc1, hs1, hl1, hp1⟩ :=
    RustStack.processNodes_replicate_psh 21844 RustStack.initState (by decide)
  have hc1n : st1.builder.counter = 65532 := by
    rw [hc1]
    rfl
  have hs1n : st1.builder.memory.size = 65535 := by
    rw [hs1]
    decide
  have hl1n : st1.labelAddrs = [] := by rw [hl1]; rfl
  have hp1n : st1.needPatching = [] := by rw [hp1]; rfl
  -- Nop at 65532
  obtain ⟨b1, hb1⟩ := RustStack.MemoryBuilder.push_isSome (b := st1.builder)
    (RustStack.opToByte .Nop) (by omega)
  obtain ⟨hbc1, hbs1, _, _, _⟩ := RustStack.MemoryBuilder.push_eq hb1
  have hpnop : RustStack.processNode st1 .Nop = .ok { st1 with builder := b1 } := by
    show (RustStack.withB (st1.builder.push (RustStack.opToByte .Nop)) fun bb =>
      (RustStack.ARes.ok { st1 with builder := bb } :
        RustStack.ARes RustStack.AsmState)) = .ok { st1 with builder := b1 }
    rw [hb1]
    rfl
  -- Jmp fin at 65533
  obtain ⟨b2, hb2⟩ := RustStack.MemoryBuilder.push_isSome (b := b1)
    (RustStack.opToByte .Jmp) (by omega)
  obtain ⟨hbc2, hbs2, _, _, _⟩ := RustStack.MemoryBuilder.push_eq hb2
  have hpjmp : RustStack.processNode { st1 with builder := b1 } (.Jmp (.Label "fin")) =
      .ok { st1 with
        builder := b2.incr
        needPatching := st1.needPatching ++ [("fin", b2.getCounter)] } := by
    show (RustStack.withB (b1.push (RustStack.opToByte .Jmp)) fun bb =>
      (RustStack.ARes.ok { st1 with
        builder := bb.incr
        needPatching := st1.needPatching ++ [("fin", bb.getCounter)] } :
        RustStack.ARes RustStack.AsmState)) =
      .ok { st1 with
        builder := b2.incr
        needPatching := st1.needPatching ++ [("fin", b2.getCounter)] }
    rw [hb2]
    rfl
  -- Label fin at 65535
  have hplab : RustStack.processNode
      { st1 with
        builder := b2.incr
        needPatching := st1.needPatching ++ [("fin", b2.getCounter)] } (.Label "fin") =
      .ok { st1 with
        builder := b2.incr
        labelAddrs := ("fin", b2.incr.counter % 65536) :: st1.labelAddrs
        needPatching := st1.needPatching ++ [("fin", b2.getCounter)] } := rfl
  have htail : RustStack.processNodes st1
      [RustStack.ASTNode.Nop, .Jmp (.Label "fin"), .Label "fin"] =
      .ok { st1 with
        builder := b2.incr
        labelAddrs := ("fin", b2.incr.counter % 65536) :: st1.labelAddrs
        needPatching := st1.needPatching ++ [("fin", b2.getCounter)] } := by
    show (RustStack.processNode st1 .Nop).bind _ = _
    rw [hpnop]
    simp only [RustStack.ARes.bind]
    show (RustStack.processNode { st1 with builder := b1 } (.Jmp (.Label "fin"))).bind _ = _
    rw [hpjmp]
    simp only [RustStack.ARes.bind]
    show (RustStack.processNode
      { st1 with
        builder := b2.incr
        needPatching := st1.needPatching ++ [("fin", b2.getCounter)] } (.Label "fin")).bind _ = _
    rw [hplab]
    rfl
  have hfull : RustStack.processNodes RustStack.initState RustStack.monsterProg =
      .ok { st1 with
        builder := b2.incr
        labelAddrs := ("fin", b2.incr.counter % 65536) :: st1.labelAddrs
        needPatching := st1.needPatching ++ [("fin", b2.getCounter)] } := by
    show RustStack.processNodes RustStack.initState
      (List.replicate 21844 (RustStack.ASTNode.Psh (.Lit 0)) ++
        [RustStack.ASTNode.Nop, .Jmp (.Label "fin"), .Label "fin"]) = _
    rw [RustStack.processNodes_append, hrep]
    simp only [RustStack.ARes.bind]
    exact htail
  -- numeric facts
  have hb1c : b1.counter = 65533 := by omega
  have hb2c : b2.counter = 65534 := by omega
  have hincr : b2.incr.counter = 65535 := by
    show b2.counter + 1 = 65535
    omega
  have haddr : b2.incr.counter % 65536 = 65535 := by omega
  have hgetc : b2.getCounter = 65534 := hb2c
  -- the label map resolves "fin"
  have hlook : RustStack.lookupA
      (("fin", b2.incr.counter % 65536) :: st1.labelAddrs) "fin" =
      some (b2.incr.counter % 65536) := by
    rw [hl1n]
    rfl
  -- the patch pass panics on the second byte of the slot
  obtain ⟨b5, hb5⟩ := RustStack.MemoryBuilder.push_isSome
    (b := b2.incr.setCounter b2.getCounter) ((b2.incr.counter % 65536) / 256 % 256)
    (by
      show b2.getCounter < (b2.incr.setCounter b2.getCounter).memory.size
      have hsz : (b2.incr.setCounter b2.getCounter).memory.size = b2.memory.size := rfl
      omega)
  obtain ⟨hb5c, hb5s, _, _, _⟩ := RustStack.MemoryBuilder.push_eq hb5
  have hb5c' : b5.counter = 65535 := by
    rw [hb5c]
    show b2.getCounter + 1 = 65535
    omega
  have hpu : (b2.incr.setCounter b2.getCounter).pushU16 (b2.incr.counter % 65536) = none := by
    unfold RustStack.MemoryBuilder.pushU16
    rw [hb5]
    simp only [Option.some_bind]
    refine RustStack.MemoryBuilder.push_none _ ?_
    have h1 : (b2.incr.setCounter b2.getCounter).memory.size = b2.memory.size := rfl
    omega
  have hpatch : RustStack.patchPass
      (("fin", b2.incr.counter % 65536) :: st1.labelAddrs)
      (st1.needPatching ++ [("fin", b2.getCounter)]) b2.incr = .panic := by
    rw [hp1n]
    show RustStack.patchPass _ [("fin", b2.getCounter)] b2.incr = _
    unfold RustStack.patchPass
    rw [hlook]
    show (match (b2.incr.setCounter b2.getCounter).pushU16 (b2.incr.counter % 65536) with
      | none => (RustStack.ARes.panic : RustStack.ARes RustStack.MemoryBuilder)
      | some b1 => RustStack.patchPass
          (("fin", b2.incr.counter % 65536) :: st1.labelAddrs) [] b1) = RustStack.ARes.panic
    rw [hpu]
  have hasm : RustStack.assemble RustStack.monsterProg = .panic := by
    unfold RustStack.assemble
    rw [hfull]
    simp only [RustStack.ARes.bind]
    show (RustStack.patchPass
      (("fin", b2.incr.counter % 65536) :: st1.labelAddrs)
      (st1.needPatching ++ [("fin", b2.getCounter)]) b2.incr).bind _ = _
    rw [hpatch]
    rfl
  refine ⟨by rw [hfull]; rfl, ?_, by rw [hasm]; rfl, by rw [hasm]; rfl⟩
  rw [hfull]
  simp only [RustStack.aresGetD]
  intro e hm
  have hm' : e ∈ st1.needPatching ++ [("fin", b2.getCounter)] := hm
  rw [hp1n] at hm'
  have he : e = ("fin", b2.getCounter) := by simpa using hm'
  subst he
  show (RustStack.lookupA (("fin", b2.incr.counter % 65536) :: st1.labelAddrs) "fin").isSome = true
  rw [hlook]
  rfl
